import Mathlib

/-!
A shallow embedding of the UASC-M2M reference implementation core
(`core/glyph.py`, `core/registry.py`, `core/trust.py`, `core/interpreter.py`)
together with theorems settling the behavioural claims about it.

Modelling conventions:
* Python scalar values are modelled by `UASC.PyVal` (int / str / bool / None);
  Python dicts keyed by strings are association lists that preserve
  insertion order (`UASC.setk` mirrors Python's "update in place, append
  when new" assignment semantics).
* Python exceptions that the core can raise are `UASC.PyExc`
  (`ValueError`, `KeyError`, and a catch-all for arbitrary handler errors);
  fallible code returns `Except PyExc _`.
* `datetime.utcnow()` is modelled by an explicit `now : Nat` parameter
  (seconds); `timedelta(days = d)` is `d * 86400`.  Wall-clock execution
  duration is not observable in any claim and is modelled as `0`.
* `bytes` values are `List Nat` with every element < 256; the semantics of
  `struct.pack/unpack '>I'` (big-endian 32-bit) is spelled out with
  arithmetic on the byte lists.
* `hashlib.sha256(...).hexdigest()[:32]` (binding signatures) is abstracted
  to the signed content string itself: the core only ever observes that the
  digest is a non-empty string.
* Python's `eval` inside `Interpreter._evaluate_condition` is an opaque
  oracle parameter `UASC.EvalOracle`: any function from the processed
  expression string and the `allowed` environment to a value or an
  exception.  Everything the interpreter does around that call is embedded
  directly.
-/

namespace UASC

/-- Python scalar values as they occur in frame contexts, parameters and
node results of the reference implementation. -/
inductive PyVal where
| int (i : Int)
| str (s : String)
| bool (b : Bool)
| none
deriving DecidableEq, Repr

/-- A Python `dict` with string keys, as an insertion-ordered association
list. -/
abbrev PyDict := List (String × PyVal)

/-- The Python exceptions observable from the embedded core: `ValueError`
(the class the reference implementation raises and catches), `KeyError`
(raised by `d[k]` on a missing key), and arbitrary other `Exception`s
(raised e.g. by externally supplied action handlers). -/
inductive PyExc where
| valueError (msg : String)
| keyError (key : String)
| error (msg : String)
deriving DecidableEq, Repr

/-- `str(e)` for an exception: `KeyError` renders its key in quotes. -/
def pyStrExc : PyExc → String
| .valueError m => m
| .keyError k => "'" ++ k ++ "'"
| .error m => m

/-- `type(v).__name__` for a scalar, as it appears in `AttributeError`
messages. -/
def pyTypeName : PyVal → String
| .int _ => "int"
| .str _ => "str"
| .bool _ => "bool"
| .none => "NoneType"

/-- `d.get(k)` on an association list: first binding wins (keys are unique
in every dict the code builds). -/
def alookup {κ α : Type} [DecidableEq κ] : List (κ × α) → κ → Option α
| [], _ => Option.none
| (k', v) :: rest, k => if k' = k then some v else alookup rest k

/-- `d[k] = v` on an association list: overwrite in place if the key
exists, append otherwise (Python dict insertion-order semantics). -/
def aset {κ α : Type} [DecidableEq κ] : List (κ × α) → κ → α → List (κ × α)
| [], k, v => [(k, v)]
| (k', v') :: rest, k, v =>
  if k' = k then (k, v) :: rest else (k', v') :: aset rest k v

/-- String-keyed `aset` (the common case). -/
def setk (d : PyDict) (k : String) (v : PyVal) : PyDict := aset d k v

/-- Truthiness of a scalar (`bool(v)` in Python). -/
def pyTruthy : PyVal → Bool
| .int i => i ≠ 0
| .str s => s ≠ ""
| .bool b => b
| .none => false

/-- Truthiness of an optional dict field (`if frame.context:`): absent
(`None`) and the empty dict are falsy. -/
def ctxTruthy : Option PyDict → Bool
| Option.none => false
| some d => !d.isEmpty

/-- The sixteen uppercase hex digit characters (`"%X"` formatting). -/
def hexChar (n : Nat) : Char :=
  ['0', '1', '2', '3', '4', '5', '6', '7', '8', '9',
   'A', 'B', 'C', 'D', 'E', 'F'].getD n '0'

/-- `f"{n:04X}"` for a value within its declared 16-bit width. -/
def hex4 (n : Nat) : String :=
  String.mk [hexChar (n / 4096 % 16), hexChar (n / 256 % 16),
             hexChar (n / 16 % 16), hexChar (n % 16)]

/-- `f"{n:03X}"` for a value within its declared 12-bit width. -/
def hex3 (n : Nat) : String :=
  String.mk [hexChar (n / 256 % 16), hexChar (n / 16 % 16), hexChar (n % 16)]

/-- The decimal digit characters. -/
def decChar (n : Nat) : Char :=
  ['0', '1', '2', '3', '4', '5', '6', '7', '8', '9'].getD n '0'

/-- Digit extraction with explicit fuel (`n + 1` digits always suffice),
keeping the definition kernel-computable. -/
def decCharsCore : Nat → Nat → List Char
| 0, _ => []
| fuel + 1, n =>
  if n < 10 then [decChar n]
  else decCharsCore fuel (n / 10) ++ [decChar (n % 10)]

/-- The decimal digits of `n`, most significant first (`str(n)`). -/
def decChars (n : Nat) : List Char := decCharsCore (n + 1) n

/-- `str(n)` for a natural number. -/
def decRepr (n : Nat) : String := String.mk (decChars n)

/-- `str(i)` for a Python int. -/
def intRepr (i : Int) : String :=
  if i < 0 then "-" ++ decRepr i.natAbs else decRepr i.toNat

/-- Value of one decimal digit character, if it is one. -/
def decVal? (c : Char) : Option Nat :=
  if c = '0' then some 0 else if c = '1' then some 1
  else if c = '2' then some 2 else if c = '3' then some 3
  else if c = '4' then some 4 else if c = '5' then some 5
  else if c = '6' then some 6 else if c = '7' then some 7
  else if c = '8' then some 8 else if c = '9' then some 9 else Option.none

/-- Parse a non-empty all-digit character list. -/
def parseDecChars : List Char → Option Nat
| [] => Option.none
| cs => cs.foldl (fun acc c => do pure ((← acc) * 10 + (← decVal? c))) (some 0)

/-- `int(s)` (base 10), on the shapes of string the core produces:
an optional sign followed by decimal digits.  (Python's `int` additionally
strips whitespace and underscores; no such strings arise here.) -/
def pyParseInt? (s : String) : Option Int :=
  match s.data with
  | '-' :: rest => (parseDecChars rest).map (fun n => -(n : Int))
  | '+' :: rest => (parseDecChars rest).map (fun n => (n : Int))
  | cs => (parseDecChars cs).map (fun n => (n : Int))

/-- Value of one hex digit character, if it is one (`int(_, 16)` accepts
both cases). -/
def hexVal? (c : Char) : Option Nat :=
  if c = '0' then some 0 else if c = '1' then some 1
  else if c = '2' then some 2 else if c = '3' then some 3
  else if c = '4' then some 4 else if c = '5' then some 5
  else if c = '6' then some 6 else if c = '7' then some 7
  else if c = '8' then some 8 else if c = '9' then some 9
  else if c = 'A' ∨ c = 'a' then some 10 else if c = 'B' ∨ c = 'b' then some 11
  else if c = 'C' ∨ c = 'c' then some 12 else if c = 'D' ∨ c = 'd' then some 13
  else if c = 'E' ∨ c = 'e' then some 14 else if c = 'F' ∨ c = 'f' then some 15
  else Option.none

/-- `int(s, 16)` on a non-empty all-hex-digit string. -/
def pyParseHex? (s : String) : Option Nat :=
  match s.data with
  | [] => Option.none
  | cs => cs.foldl (fun acc c => do pure ((← acc) * 16 + (← hexVal? c))) (some 0)

end UASC

namespace UASC

/-! ## `core/glyph.py` -/

/-- `GlyphFrame`: a decoded UASC glyph frame. -/
structure GlyphFrame where
  domain : Nat
  authority : Nat
  glyph_code : Nat
  context : Option PyDict := Option.none
deriving DecidableEq, Repr

/-- `GLYPH_TOKENS`: the fixed opcode-to-token table. -/
def GLYPH_TOKENS : List (Nat × String) :=
  [(0x8001, "@A1"), (0x8002, "@A2"), (0x8003, "@C3"), (0x8004, "@N4"),
   (0x8005, "@X5"), (0x8006, "@I6"), (0x8007, "@S7")]

/-- `GlyphFrame.to_token`: the symbolic opcode token, `@{code:04X}` when the
code is not in the table. -/
def GlyphFrame.to_token (f : GlyphFrame) : String :=
  (alookup GLYPH_TOKENS f.glyph_code).getD ("@" ++ hex4 f.glyph_code)

/-- `int(v)` on a context value. -/
def pyInt : PyVal → Except PyExc Int
| .int i => .ok i
| .bool b => .ok (if b then 1 else 0)
| .str s =>
  match pyParseInt? s with
  | some i => .ok i
  | Option.none => .error (.valueError ("invalid literal for int() with base 10: " ++ s))
| .none => .error (.error "int() argument must be a string or a number, not NoneType")

/-- Python `i & 0xFF` on a (possibly negative) int: two's-complement
semantics, i.e. `i mod 256`. -/
def maskByte (i : Int) : Nat := (i % 256).toNat

/-- The `modes` table of `GlyphCodec._encode_context`:
`{'normal': 0, 'emergency': 1, 'maintenance': 2, 'test': 3}.get(v, 0)`
(any non-string or unknown value falls back to 0). -/
def modeToCode : PyVal → Nat
| .str "normal" => 0
| .str "emergency" => 1
| .str "maintenance" => 2
| .str "test" => 3
| _ => 0

/-- The `modes` table of `GlyphCodec._decode_context`:
`{0: 'normal', 1: 'emergency', 2: 'maintenance', 3: 'test'}.get(n, 'normal')`. -/
def codeToMode (n : Nat) : String :=
  if n = 0 then "normal" else if n = 1 then "emergency"
  else if n = 2 then "maintenance" else if n = 3 then "test" else "normal"

/-- `GlyphCodec._encode_context`: pack the three recognised fields of a
context dict into a 32-bit word. -/
def GlyphCodec._encode_context (context : PyDict) : Except PyExc Nat := do
  let mut packed : Nat := 0
  if let some z := alookup context "zone" then
    packed := packed ||| (maskByte (← pyInt z)) <<< 24
  if let some p := alookup context "priority" then
    packed := packed ||| (maskByte (← pyInt p)) <<< 16
  if (alookup context "mode").isSome then
    packed := packed ||| (modeToCode ((alookup context "mode").getD .none) % 256) <<< 8
  pure packed

/-- `GlyphCodec._decode_context`: unpack a 32-bit context word into the
fixed-field dict. -/
def GlyphCodec._decode_context (packed : Nat) : PyDict :=
  [("zone", .int ((packed >>> 24) &&& 0xFF : Nat)),
   ("priority", .int ((packed >>> 16) &&& 0xFF : Nat)),
   ("mode", .str (codeToMode ((packed >>> 8) &&& 0xFF)))]

/-- `struct.pack('>I', x)`: the four big-endian bytes of a 32-bit word. -/
def pack32 (x : Nat) : List Nat :=
  [x / 16777216 % 256, x / 65536 % 256, x / 256 % 256, x % 256]

/-- `struct.unpack('>I', b)[0]` on a 4-byte list: big-endian recombination. -/
def unpack32 (b : List Nat) : Nat :=
  b.foldl (fun acc byte => acc * 256 + byte) 0

/-- `GlyphCodec.encode`: 4-byte compact form, or 8-byte extended form when
the frame carries a (truthy) context. -/
def GlyphCodec.encode (frame : GlyphFrame) : Except PyExc (List Nat) :=
  let packed : Nat :=
    ((frame.domain &&& 0xF) <<< 28) ||| ((frame.authority &&& 0xFFF) <<< 16) |||
      (frame.glyph_code &&& 0xFFFF)
  if ctxTruthy frame.context then do
    let context_packed ← GlyphCodec._encode_context (frame.context.getD [])
    pure (pack32 packed ++ pack32 context_packed)
  else
    pure (pack32 packed)

/-- `GlyphCodec.decode`: reject inputs shorter than 4 bytes, read the
compact word, and the context word when 8 bytes are available. -/
def GlyphCodec.decode (data : List Nat) : Except PyExc GlyphFrame :=
  if data.length < 4 then
    .error (.valueError "Frame too short: minimum 4 bytes required")
  else
    let packed := unpack32 (data.take 4)
    let frame : GlyphFrame :=
      { domain := (packed >>> 28) &&& 0xF
        authority := (packed >>> 16) &&& 0xFFF
        glyph_code := packed &&& 0xFFFF }
    if data.length ≥ 8 then
      let context_packed := unpack32 ((data.drop 4).take 4)
      .ok { frame with context := some (GlyphCodec._decode_context context_packed) }
    else
      .ok frame

/-- The `Domain` enum of `glyph.py`, in definition order
(`Domain.__members__`). -/
def domainMembers : List (String × Nat) :=
  [("RESERVED", 0x0), ("SMART_CITY", 0x1), ("AEROSPACE", 0x2),
   ("MARITIME", 0x3), ("MILITARY", 0x4), ("MEDICAL", 0x5),
   ("INDUSTRIAL", 0x6), ("FINANCIAL", 0x7), ("ENERGY", 0x8),
   ("TRANSPORT", 0x9), ("TELECOM", 0xA), ("AGRICULTURE", 0xB),
   ("CUSTOM", 0xF)]

/-- The `Domain` member names with `.lower()` applied (spelled out so that
the tables are kernel-computable constants). -/
def domainMembersLower : List (String × Nat) :=
  [("reserved", 0x0), ("smart_city", 0x1), ("aerospace", 0x2),
   ("maritime", 0x3), ("military", 0x4), ("medical", 0x5),
   ("industrial", 0x6), ("financial", 0x7), ("energy", 0x8),
   ("transport", 0x9), ("telecom", 0xA), ("agriculture", 0xB),
   ("custom", 0xF)]

/-- `{v: k.lower() for k, v in Domain.__members__.items()}`. -/
def domainValueToName : List (Nat × String) :=
  domainMembersLower.map (fun p => (p.2, p.1))

/-- `{k.lower(): v for k, v in Domain.__members__.items()}`. -/
def domainNameToValue : List (String × Nat) :=
  domainMembersLower

/-- `str(v)` for an f-string interpolation of a context value. -/
def pyStrVal : PyVal → String
| .int i => intRepr i
| .str s => s
| .bool b => if b then "True" else "False"
| .none => "None"

/-- Python `sep.join(items)`. -/
def pyJoin (sep : String) : List String → String
| [] => ""
| [s] => s
| s :: rest => s ++ sep ++ pyJoin sep rest

/-- `GlyphCodec.to_text`: render a frame as
`UASC://{domain}.{authority}/{token}[?k=v&...]`. -/
def GlyphCodec.to_text (frame : GlyphFrame) : String :=
  let domain_name :=
    (alookup domainValueToName frame.domain).getD ("domain_" ++ decRepr frame.domain)
  let authority_name := "auth_" ++ hex3 frame.authority
  let uri := "UASC://" ++ domain_name ++ "." ++ authority_name ++ "/" ++ frame.to_token
  if ctxTruthy frame.context then
    let params := pyJoin "&"
      ((frame.context.getD []).map (fun p => p.1 ++ "=" ++ pyStrVal p.2))
    uri ++ "?" ++ params
  else
    uri

/-- Python `s.split(sep)` on character lists (used through `String.data`):
`''.split(c) = ['']`, separators at the ends produce empty pieces. -/
def splitChars (sep : Char) : List Char → List (List Char)
| [] => [[]]
| c :: rest =>
  let tail := splitChars sep rest
  if c = sep then [] :: tail
  else
    match tail with
    | piece :: pieces => (c :: piece) :: pieces
    | [] => [[c]]

/-- Python `s.split(sep, 1)`: split around the first occurrence of `sep`,
`none` when `sep` does not occur. -/
def splitOnceChar (sep : Char) : List Char → Option (List Char × List Char)
| [] => Option.none
| c :: rest =>
  if c = sep then some ([], rest)
  else (splitOnceChar sep rest).map (fun p => (c :: p.1, p.2))

/-- `try: int(value) except ValueError: value` when parsing a query
parameter value. -/
def parseParamVal (v : String) : PyVal :=
  match pyParseInt? v with
  | some i => .int i
  | Option.none => .str v

/-- `key, value = param.split('=')`: Python tuple unpacking raises
`ValueError` unless the split yields exactly two pieces. -/
def unpack2 (pieces : List (List Char)) : Except PyExc (List Char × List Char) :=
  match pieces with
  | [a, b] => .ok (a, b)
  | [_] => .error (.valueError "not enough values to unpack (expected 2, got 1)")
  | _ => .error (.valueError "too many values to unpack (expected 2)")

/-- `GlyphCodec.from_text`: parse the text URI form back to a frame. -/
def GlyphCodec.from_text (uri : String) : Except PyExc GlyphFrame := do
  if !("UASC://".data.isPrefixOf uri.data) then
    throw (.valueError "Invalid UASC URI format")
  let path0 := uri.data.drop 7
  let (path, query?) :=
    match splitOnceChar '?' path0 with
    | some (p, q) => (p, some q)
    | Option.none => (path0, Option.none)
  let parts := splitChars '/' path
  let (domain_auth, glyph_char) ←
    match parts with
    | [a, b] => pure (a, b)
    | _ => throw (.valueError "Invalid UASC URI path")
  let (domain_str, auth_str) ← unpack2 (splitChars '.' domain_auth)
  let domain := (alookup domainNameToValue (String.mk domain_str)).getD 0
  let authority ←
    if "auth_".data.isPrefixOf auth_str then
      match pyParseHex? (String.mk (auth_str.drop 5)) with
      | some n => pure n
      | Option.none =>
        throw (.valueError ("invalid literal for int() with base 16: " ++
          String.mk (auth_str.drop 5)))
    else
      pure 0
  let glyph_code :=
    (alookup (GLYPH_TOKENS.map (fun p => (p.2, p.1))) (String.mk glyph_char)).getD 0xFFFF
  let context : Option PyDict ←
    match query? with
    | Option.none => pure Option.none
    | some q => do
      let entries ← (splitChars '&' q).mapM (fun param => do
        let (k, v) ← unpack2 (splitChars '=' param)
        pure (String.mk k, parseParamVal (String.mk v)))
      pure (some entries)
  pure { domain := domain, authority := authority, glyph_code := glyph_code,
         context := context }

end UASC

namespace UASC

/-! ## `core/registry.py` -/

/-- One entry of `ExecutionGraph.inputs`: an input declaration dict with an
optionally missing `'name'` key (accessing it then raises `KeyError`), an
optionally present `'default'`, and the truthiness of `.get('required',
False)`. -/
structure InputDecl where
  name? : Option String := Option.none
  default? : Option PyVal := Option.none
  required : Bool := false
deriving DecidableEq, Repr

/-- One node definition dict: the keys the interpreter and the validator
read, each `Option` marking key presence.  The `'expression'` value is an
arbitrary scalar (`PyVal`), not necessarily a string: nothing in
registration or validation constrains it, and `_evaluate_condition` calls
`.replace` on it. -/
structure Node where
  type? : Option String := Option.none
  next? : Option String := Option.none
  on_true? : Option String := Option.none
  on_false? : Option String := Option.none
  on_error? : Option String := Option.none
  operation? : Option String := Option.none
  params : PyDict := []
  outputs : PyDict := []
  expression? : Option PyVal := Option.none
deriving DecidableEq, Repr

/-- `ExecutionGraph` (the `checksum` property is unused by the embedded
operations and not modelled). -/
structure ExecutionGraph where
  graph_id : String
  name : String := ""
  version : String := ""
  domain : String := ""
  inputs : List InputDecl := []
  outputs : List PyDict := []
  nodes : List (String × Node)
  error_handling : PyDict := []
  constraints : PyDict := []
deriving DecidableEq, Repr

/-- The reference targets of one node, in the order the validator checks
them (`['next', 'on_true', 'on_false']` — `on_error` is *not* on the
list). -/
def nodeRefTargets (node : Node) : List String :=
  [node.next?, node.on_true?, node.on_false?].filterMap id

/-- `ExecutionGraph.validate`: the list of structural errors, in the order
the reference implementation accumulates them. -/
def ExecutionGraph.validate (g : ExecutionGraph) : List String :=
  (if (alookup g.nodes "start").isNone then ["Missing 'start' node"] else []) ++
  (g.nodes.flatMap (fun p =>
    (nodeRefTargets p.2).filterMap (fun tgt =>
      if (alookup g.nodes tgt).isNone then
        some ("Node '" ++ p.1 ++ "' references unknown node '" ++ tgt ++ "'")
      else
        Option.none))) ++
  (if g.nodes.any (fun p => p.2.type? = some "exit") then []
   else ["No exit node defined"])

/-- `repr(s)` for the strings appearing in validation messages: Python
picks double quotes when the string contains a single quote (and no double
quote), else single quotes. -/
def pyReprStr (s : String) : String :=
  if s.data.contains '\'' ∧ ¬ s.data.contains '"' then "\"" ++ s ++ "\""
  else "'" ++ s ++ "'"

/-- `str(errors)` for the error list interpolated into the
`Invalid graph: ...` message. -/
def pyListRepr (xs : List String) : String :=
  "[" ++ String.intercalate ", " (xs.map pyReprStr) ++ "]"

/-- `GlyphBinding`. -/
structure GlyphBinding where
  glyph_code : Nat
  graph_id : String
  authority : Nat
  valid_from : Nat
  valid_until : Nat
  signature : String := ""
deriving DecidableEq, Repr

/-- `GlyphBinding.is_valid` at the given instant. -/
def GlyphBinding.is_valid (b : GlyphBinding) (now : Nat) : Bool :=
  b.valid_from ≤ now && now ≤ b.valid_until

/-- `Registry`. -/
structure Registry where
  registry_id : String
  domain : Nat
  authority : Nat
  graphs : List (String × ExecutionGraph) := []
  bindings : List (Nat × GlyphBinding) := []
  revocations : List Nat := []
deriving DecidableEq, Repr

/-- `Registry._sign_binding`: sha256 over the content string, abstracted to
the (always non-empty) content string itself. -/
def Registry._sign_binding (r : Registry) (glyph_code : Nat) (graph_id : String) : String :=
  r.registry_id ++ ":" ++ decRepr glyph_code ++ ":" ++ graph_id ++ ":" ++ decRepr r.authority

/-- `Registry.register_graph`: validate, raise `ValueError` listing every
violation, else store by graph_id and return it. -/
def Registry.register_graph (r : Registry) (g : ExecutionGraph) :
    Except PyExc (String × Registry) :=
  let errors := g.validate
  if errors ≠ [] then
    .error (.valueError ("Invalid graph: " ++ pyListRepr errors))
  else
    .ok (g.graph_id, { r with graphs := aset r.graphs g.graph_id g })

/-- `Registry.bind_glyph` at instant `now` (`validity_days` defaults to 365
at call sites). -/
def Registry.bind_glyph (r : Registry) (glyph_code : Nat) (graph_id : String)
    (validity_days : Nat) (now : Nat) : Except PyExc (GlyphBinding × Registry) :=
  if (alookup r.graphs graph_id).isNone then
    .error (.valueError ("Graph '" ++ graph_id ++ "' not found in registry"))
  else if ¬ (0x8000 ≤ glyph_code ∧ glyph_code ≤ 0xFFFE) then
    .error (.valueError ("Glyph code 0x" ++ hex4 glyph_code ++ " outside valid range"))
  else
    let binding : GlyphBinding :=
      { glyph_code := glyph_code
        graph_id := graph_id
        authority := r.authority
        valid_from := now
        valid_until := now + validity_days * 86400
        signature := r._sign_binding glyph_code graph_id }
    .ok (binding, { r with bindings := aset r.bindings glyph_code binding })

/-- `Registry.lookup` at instant `now`: `None` on revoked, unbound, or
window-expired codes, else the bound graph (which may itself be absent). -/
def Registry.lookup (r : Registry) (glyph_code : Nat) (now : Nat) :
    Option ExecutionGraph :=
  if glyph_code ∈ r.revocations then Option.none
  else
    match alookup r.bindings glyph_code with
    | Option.none => Option.none
    | some binding =>
      if !binding.is_valid now then Option.none
      else alookup r.graphs binding.graph_id

/-- `Registry.get_binding`. -/
def Registry.get_binding (r : Registry) (glyph_code : Nat) : Option GlyphBinding :=
  alookup r.bindings glyph_code

/-- `Registry.revoke`: `ValueError` when no binding exists, else append to
the revocation list (the `reason` argument is unused by the code). -/
def Registry.revoke (r : Registry) (glyph_code : Nat) (_reason : String := "") :
    Except PyExc Registry :=
  if (alookup r.bindings glyph_code).isNone then
    .error (.valueError ("No binding for glyph 0x" ++ hex4 glyph_code))
  else
    .ok { r with revocations := r.revocations ++ [glyph_code] }

/-- `Registry.is_revoked`. -/
def Registry.is_revoked (r : Registry) (glyph_code : Nat) : Bool :=
  glyph_code ∈ r.revocations

end UASC

namespace UASC

/-! ## `core/trust.py` -/

/-- `Certificate`. -/
structure Certificate where
  authority_id : Nat
  domain : Nat
  name : String
  public_key : String := ""
  valid_from : Nat
  valid_until : Nat
  issuer_id : Nat
  signature : String := ""
deriving DecidableEq, Repr

/-- `Certificate.is_valid` at the given instant. -/
def Certificate.is_valid (c : Certificate) (now : Nat) : Bool :=
  c.valid_from ≤ now && now ≤ c.valid_until

/-- `Certificate.is_expired` at the given instant. -/
def Certificate.is_expired (c : Certificate) (now : Nat) : Bool :=
  now > c.valid_until

/-- `VerificationResult`. -/
structure VerificationResult where
  valid : Bool
  reason : String := ""
  authority_name : String := ""
  chain_length : Nat := 0
deriving DecidableEq, Repr

/-- `TrustVerifier`. -/
structure TrustVerifier where
  root_key : String := "ROOT_PUBLIC_KEY"
  domain_certs : List (Nat × Certificate) := []
  authority_certs : List ((Nat × Nat) × Certificate) := []
  revoked_authorities : List (Nat × Nat) := []
deriving Repr

/-- `TrustVerifier.verify` at instant `now`: the eight ordered,
short-circuiting checks of the trust chain. -/
def TrustVerifier.verify (v : TrustVerifier) (domain authority : Nat)
    (binding_signature : String) (now : Nat) : VerificationResult :=
  if (domain, authority) ∈ v.revoked_authorities then
    { valid := false, reason := "Authority has been revoked" }
  else
    match alookup v.authority_certs (domain, authority) with
    | Option.none =>
      { valid := false
        reason := "Unknown authority: domain=" ++ decRepr domain ++
          ", authority=" ++ decRepr authority }
    | some auth_cert =>
      if !auth_cert.is_valid now then
        if auth_cert.is_expired now then
          { valid := false, reason := "Authority certificate expired" }
        else
          { valid := false, reason := "Authority certificate not yet valid" }
      else
        match alookup v.domain_certs domain with
        | Option.none =>
          { valid := false, reason := "Unknown domain: " ++ decRepr domain }
        | some domain_cert =>
          if !domain_cert.is_valid now then
            { valid := false, reason := "Domain certificate expired or not valid" }
          else if auth_cert.issuer_id ≠ domain_cert.authority_id then
            { valid := false, reason := "Authority not certified by domain authority" }
          else if domain_cert.issuer_id ≠ 0 then
            { valid := false, reason := "Domain not certified by root authority" }
          else if binding_signature = "" then
            { valid := false, reason := "Glyph binding signature missing" }
          else
            { valid := true, reason := "Trust chain verified"
              authority_name := auth_cert.name, chain_length := 2 }

end UASC

namespace UASC

/-! ## `core/interpreter.py` -/

/-- A raw action-handler result: either a scalar or a dict (the interpreter
distinguishes the two via `isinstance(result, dict)`). -/
inductive NodeRes where
| plain (v : PyVal)
| map (m : PyDict)
deriving DecidableEq, Repr

/-- `ExecutionContext`. -/
structure ExecutionContext where
  parameters : PyDict := []
  system : PyDict := []
  node_results : List (String × NodeRes) := []
deriving DecidableEq, Repr

/-- `ExecutionResult`. -/
structure ExecutionResult where
  status : String
  outputs : PyDict := []
  execution_time_ms : Nat := 0
  node_trace : List String := []
  error : Option String := Option.none
deriving DecidableEq, Repr

/-- The `ActionRegistry` handler table: operation name to handler.  A
handler receives the resolved params and may return any value or raise any
exception. -/
abbrev ActionHandlers := List (String × (PyDict → Except PyExc NodeRes))

/-- `ActionRegistry.execute`: `ValueError` on unknown operations, else the
handler's outcome. -/
def ActionRegistry.execute (acts : ActionHandlers) (operation : String)
    (params : PyDict) : Except PyExc NodeRes :=
  match alookup acts operation with
  | Option.none => .error (.valueError ("Unknown operation: " ++ operation))
  | some handler => handler params

/-- The `eval(expression, {"__builtins__": {}}, allowed)` call inside
`_evaluate_condition`, as an opaque oracle: any function from the processed
expression and the allowed environment to a value or an exception. -/
abbrev EvalOracle := String → PyDict → Except PyExc PyVal

/-- One log entry of the interpreter's execution log (`_log_execution`);
the ISO timestamp is represented by the instant itself. -/
structure LogEntry where
  timestamp : Nat
  glyph : String
  glyph_code : String
  authority : String
  status : String
  execution_time_ms : Nat
  node_count : Nat
  error : Option String
deriving DecidableEq, Repr

/-- `Interpreter` state: the injected collaborators, the execution log and
the iteration cap (`max_iterations`, 100 in `__init__`). -/
structure Interpreter where
  registry : Registry
  trust : TrustVerifier
  actions : ActionHandlers
  execution_log : List LogEntry := []
  max_iterations : Nat := 100

/-- `repr(value)` for the values substituted into condition expressions. -/
def pyReprVal : PyVal → String
| .int i => intRepr i
| .str s => pyReprStr s
| .bool b => if b then "True" else "False"
| .none => "None"

/-- `Interpreter._resolve_params` (and `_resolve_outputs`): resolve
`inputs.<name>` and `<node_id>.<key>` string references against the
context; everything else passes through literally. -/
def Interpreter._resolve_params (params : PyDict) (context : ExecutionContext) :
    PyDict :=
  params.map (fun kv =>
    (kv.1,
      match kv.2 with
      | .str s =>
        if "inputs.".data.isPrefixOf s.data then
          (alookup context.parameters (String.mk (s.data.drop 7))).getD .none
        else if s.data.contains '.' then
          match splitOnceChar '.' s.data with
          | some (node_id, result_key) =>
            match alookup context.node_results (String.mk node_id) with
            | some (.map m) => (alookup m (String.mk result_key)).getD .none
            | some (.plain v) => v
            | Option.none => .none
          | Option.none => .str s
        else .str s
      | v => v))

/-- `Interpreter._resolve_outputs`. -/
def Interpreter._resolve_outputs (outputs : PyDict) (context : ExecutionContext) :
    PyDict :=
  Interpreter._resolve_params outputs context

/-- `Interpreter._execute_action`: resolve params and dispatch to the
action registry. -/
def Interpreter._execute_action (acts : ActionHandlers) (node : Node)
    (context : ExecutionContext) : Except PyExc NodeRes :=
  ActionRegistry.execute acts (node.operation?.getD "")
    (Interpreter._resolve_params node.params context)

/-- The `expression.replace(f"inputs.{param}", repr(value))` loop of
`_evaluate_condition`. -/
def substExpression (expression : String) (parameters : PyDict) : String :=
  parameters.foldl (fun e kv => e.replace ("inputs." ++ kv.1) (pyReprVal kv.2))
    expression

/-- The `allowed` environment handed to `eval`: `True`/`False` plus every
int/str/bool entry of the merged parameter + flattened-node-result
context. -/
def buildAllowed (context : ExecutionContext) : PyDict :=
  let eval_context := context.node_results.foldl (fun acc nr =>
    match nr.2 with
    | .map m => m.foldl (fun acc2 kv => setk acc2 (nr.1 ++ "_" ++ kv.1) kv.2) acc
    | .plain _ => acc) context.parameters
  (eval_context.filter (fun kv =>
    match kv.2 with
    | .int _ => true
    | .str _ => true
    | .bool _ => true
    | .none => false)).foldl (fun acc kv => setk acc kv.1 kv.2)
    [("True", .bool true), ("False", .bool false)]

/-- `Interpreter._evaluate_condition`: literal `true`/`false` short-cuts,
then the `expression.replace(...)` loop over `context.parameters`, then
guarded evaluation of the substituted expression — any failure *inside the
`try`* yields `False`.  The replace loop sits *outside* the `try`: on a
non-string expression it raises `AttributeError` at its first iteration,
so a non-string expression with non-empty parameters escapes; with empty
parameters the loop is skipped and `eval` on the non-string raises
`TypeError` inside the `try`, yielding `False`. -/
def Interpreter._evaluate_condition (oracle : EvalOracle) (node : Node)
    (context : ExecutionContext) : Except PyExc Bool :=
  let expression := node.expression?.getD (.str "true")
  if expression = PyVal.str "true" then .ok true
  else if expression = PyVal.str "false" then .ok false
  else
    match expression with
    | .str s =>
      match oracle (substExpression s context.parameters)
          (buildAllowed context) with
      | .ok v => .ok (pyTruthy v)
      | .error _ => .ok false
    | other =>
      if context.parameters = [] then .ok false
      else
        .error (.error ("'" ++ pyTypeName other ++
          "' object has no attribute 'replace'"))

/-- The dict `_execute_graph` returns: `status` is `'completed'` or
`'failed'`; `outputs`/`error` mirror `.get('outputs', {})` /
`.get('error')` on the absent keys. -/
structure GraphOutcome where
  status : String
  outputs : PyDict := []
  error : Option String := Option.none
  trace : List String
deriving DecidableEq, Repr

/-- The `for iteration in range(max_iterations)` loop of
`_execute_graph`, with the remaining iteration count as fuel: each
iteration looks the current node up, appends it to the trace and
dispatches on its type. -/
def execGraphLoop (acts : ActionHandlers) (oracle : EvalOracle)
    (g : ExecutionGraph) : Nat → String → ExecutionContext → List String →
    Except PyExc GraphOutcome
| 0, _, _, trace =>
  .ok { status := "failed"
        error := some "Max iterations exceeded - possible infinite loop"
        trace := trace }
| fuel + 1, current_node, context, trace =>
  match alookup g.nodes current_node with
  | Option.none =>
    .ok { status := "failed", error := some ("Unknown node: " ++ current_node)
          trace := trace }
  | some node =>
    let trace := trace ++ [current_node]
    let node_type := node.type?.getD "action"
    if node_type = "entry" then
      execGraphLoop acts oracle g fuel (node.next?.getD "end") context trace
    else if node_type = "exit" then
      .ok { status := "completed"
            outputs := Interpreter._resolve_outputs node.outputs context
            trace := trace }
    else if node_type = "action" then
      match Interpreter._execute_action acts node context with
      | .ok result =>
        execGraphLoop acts oracle g fuel (node.next?.getD "end")
          { context with
            node_results := aset context.node_results current_node result }
          trace
      | .error e =>
        match node.on_error? with
        | some target => execGraphLoop acts oracle g fuel target context trace
        | Option.none => .error e
    else if node_type = "condition" then
      match Interpreter._evaluate_condition oracle node context with
      | .error e => .error e
      | .ok condition_result =>
        execGraphLoop acts oracle g fuel
          (if condition_result then node.on_true?.getD "end"
           else node.on_false?.getD "end") context trace
    else
      .ok { status := "failed", error := some ("Unknown node type: " ++ node_type)
            trace := trace }

/-- `Interpreter._execute_graph`: walk from `"start"` with the configured
iteration cap. -/
def Interpreter._execute_graph (acts : ActionHandlers) (oracle : EvalOracle)
    (max_iterations : Nat) (g : ExecutionGraph) (context : ExecutionContext) :
    Except PyExc GraphOutcome :=
  execGraphLoop acts oracle g max_iterations "start" context []

/-- The `for input_def in graph.inputs` loop of `_build_context`:
`input_def['name']` raises `KeyError` when the key is absent; otherwise
apply the default or enforce `required`. -/
def applyInputDecls : List InputDecl → PyDict → Except PyExc PyDict
| [], parameters => .ok parameters
| d :: rest, parameters =>
  match d.name? with
  | Option.none => .error (.keyError "name")
  | some name =>
    if (alookup parameters name).isSome then applyInputDecls rest parameters
    else
      match d.default? with
      | some v => applyInputDecls rest (setk parameters name v)
      | Option.none =>
        if d.required then
          .error (.valueError ("Missing required parameter: " ++ name))
        else
          applyInputDecls rest parameters

/-- `Interpreter._build_context` at instant `now`: merge the frame context
into the parameters, apply graph input defaults (raising on missing
required inputs), and attach the system-info bag. -/
def Interpreter._build_context (frame : GlyphFrame) (g : ExecutionGraph)
    (now : Nat) : Except PyExc ExecutionContext := do
  let initial : PyDict := if ctxTruthy frame.context then frame.context.getD [] else []
  let parameters ← applyInputDecls g.inputs initial
  .ok { parameters := parameters
        system :=
          [("timestamp", .str (decRepr now)),
           ("glyph", .str frame.to_token),
           ("glyph_code", .str ("0x" ++ hex4 frame.glyph_code)),
           ("domain", .int frame.domain),
           ("authority", .int frame.authority)] }

/-- `Interpreter._reject`: a rejection result (elapsed wall-clock time is
abstracted to 0). -/
def Interpreter._reject (reason : String) : ExecutionResult :=
  { status := "rejected", error := some reason }

/-- The summary entry `_log_execution` appends. -/
def mkLogEntry (now : Nat) (frame : GlyphFrame) (result : ExecutionResult)
    (authority_name : String) : LogEntry :=
  { timestamp := now
    glyph := frame.to_token
    glyph_code := "0x" ++ hex4 frame.glyph_code
    authority := authority_name
    status := result.status
    execution_time_ms := result.execution_time_ms
    node_count := result.node_trace.length
    error := result.error }

/-- `Interpreter.execute` at instant `now`: the six-stage pipeline.  Note
that only `ValueError` is caught around `_build_context` (any other
exception from it propagates out), that graph-walk exceptions become a
`failed` result, and that `_log_execution` runs only when the graph walk
returned normally. -/
def Interpreter.execute (oracle : EvalOracle) (I : Interpreter)
    (frame : GlyphFrame) (now : Nat) :
    Except PyExc (ExecutionResult × Interpreter) :=
  match I.registry.get_binding frame.glyph_code with
  | Option.none =>
    .ok (Interpreter._reject ("No binding for glyph 0x" ++ hex4 frame.glyph_code), I)
  | some binding =>
    let trust_result := I.trust.verify frame.domain frame.authority binding.signature now
    if !trust_result.valid then
      .ok (Interpreter._reject ("Trust verification failed: " ++ trust_result.reason), I)
    else
      match I.registry.lookup frame.glyph_code now with
      | Option.none =>
        .ok (Interpreter._reject "Execution graph not found or revoked", I)
      | some graph =>
        match Interpreter._build_context frame graph now with
        | .error (.valueError msg) => .ok (Interpreter._reject msg, I)
        | .error e => .error e
        | .ok context =>
          match Interpreter._execute_graph I.actions oracle I.max_iterations
              graph context with
          | .error e =>
            .ok ({ status := "failed", error := some (pyStrExc e) }, I)
          | .ok result =>
            let exec_result : ExecutionResult :=
              { status := if result.status = "completed" then "success" else "failed"
                outputs := result.outputs
                node_trace := result.trace
                error := result.error }
            .ok (exec_result,
              { I with execution_log := I.execution_log ++
                  [mkLogEntry now frame exec_result trust_result.authority_name] })

end UASC

namespace UASC

/-! ## Claim C1: `TrustVerifier.verify` -/

/-- C1.  For every domain, authority and non-empty binding signature,
`TrustVerifier.verify` succeeds — returning the authority certificate's
display name and `chain_length = 2` — exactly when all eight chain
conditions hold; the checks run in the fixed order, short-circuit on the
first failure, and every distinct failure yields `valid = False` with its
own specific reason string. -/
theorem trust_verify_spec (v : TrustVerifier) (domain authority : Nat)
    (s : String) (now : Nat) (hs : s ≠ "") :
    ((v.verify domain authority s now).valid = true ↔
      ((domain, authority) ∉ v.revoked_authorities ∧
       ∃ ac, alookup v.authority_certs (domain, authority) = some ac ∧
         ac.is_valid now = true ∧
       ∃ dc, alookup v.domain_certs domain = some dc ∧
         dc.is_valid now = true ∧
         ac.issuer_id = dc.authority_id ∧
         dc.issuer_id = 0 ∧ s ≠ "")) ∧
    (∀ ac, (domain, authority) ∉ v.revoked_authorities →
      alookup v.authority_certs (domain, authority) = some ac →
      ac.is_valid now = true →
      ∀ dc, alookup v.domain_certs domain = some dc →
        dc.is_valid now = true →
        ac.issuer_id = dc.authority_id →
        dc.issuer_id = 0 →
        v.verify domain authority s now =
          { valid := true, reason := "Trust chain verified"
            authority_name := ac.name, chain_length := 2 }) ∧
    ((domain, authority) ∈ v.revoked_authorities →
      v.verify domain authority s now =
        { valid := false, reason := "Authority has been revoked" }) ∧
    ((domain, authority) ∉ v.revoked_authorities →
      alookup v.authority_certs (domain, authority) = Option.none →
      v.verify domain authority s now =
        { valid := false
          reason := "Unknown authority: domain=" ++ decRepr domain ++
            ", authority=" ++ decRepr authority }) ∧
    (∀ ac, (domain, authority) ∉ v.revoked_authorities →
      alookup v.authority_certs (domain, authority) = some ac →
      ac.is_valid now = false → ac.is_expired now = true →
      v.verify domain authority s now =
        { valid := false, reason := "Authority certificate expired" }) ∧
    (∀ ac, (domain, authority) ∉ v.revoked_authorities →
      alookup v.authority_certs (domain, authority) = some ac →
      ac.is_valid now = false → ac.is_expired now = false →
      v.verify domain authority s now =
        { valid := false, reason := "Authority certificate not yet valid" }) ∧
    (∀ ac, (domain, authority) ∉ v.revoked_authorities →
      alookup v.authority_certs (domain, authority) = some ac →
      ac.is_valid now = true →
      alookup v.domain_certs domain = Option.none →
      v.verify domain authority s now =
        { valid := false, reason := "Unknown domain: " ++ decRepr domain }) ∧
    (∀ ac dc, (domain, authority) ∉ v.revoked_authorities →
      alookup v.authority_certs (domain, authority) = some ac →
      ac.is_valid now = true →
      alookup v.domain_certs domain = some dc →
      dc.is_valid now = false →
      v.verify domain authority s now =
        { valid := false, reason := "Domain certificate expired or not valid" }) ∧
    (∀ ac dc, (domain, authority) ∉ v.revoked_authorities →
      alookup v.authority_certs (domain, authority) = some ac →
      ac.is_valid now = true →
      alookup v.domain_certs domain = some dc →
      dc.is_valid now = true →
      ac.issuer_id ≠ dc.authority_id →
      v.verify domain authority s now =
        { valid := false, reason := "Authority not certified by domain authority" }) ∧
    (∀ ac dc, (domain, authority) ∉ v.revoked_authorities →
      alookup v.authority_certs (domain, authority) = some ac →
      ac.is_valid now = true →
      alookup v.domain_certs domain = some dc →
      dc.is_valid now = true →
      ac.issuer_id = dc.authority_id →
      dc.issuer_id ≠ 0 →
      v.verify domain authority s now =
        { valid := false, reason := "Domain not certified by root authority" }) := by
  by_cases h1 : (domain, authority) ∈ v.revoked_authorities
  · simp [TrustVerifier.verify, h1]
  · cases hac : alookup v.authority_certs (domain, authority) with
    | none => simp [TrustVerifier.verify, h1, hac]
    | some ac =>
      by_cases hav : ac.is_valid now
      · cases hdc : alookup v.domain_certs domain with
        | none => simp [TrustVerifier.verify, h1, hac, hav, hdc]
        | some dc =>
          by_cases hdv : dc.is_valid now
          · by_cases hiss : ac.issuer_id = dc.authority_id
            · by_cases hroot : dc.issuer_id = 0
              · simp [TrustVerifier.verify, h1, hac, hav, hdc, hdv, hiss, hroot, hs]
              · simp [TrustVerifier.verify, h1, hac, hav, hdc, hdv, hiss, hroot]
            · simp [TrustVerifier.verify, h1, hac, hav, hdc, hdv, hiss]
          · simp [TrustVerifier.verify, h1, hac, hav, hdc,
              Bool.not_eq_true _ ▸ hdv]
      · by_cases hexp : ac.is_expired now
        · simp [TrustVerifier.verify, h1, hac, hav, hexp]
          exact ⟨fun a d h hval _ => absurd (h.symm ▸ hval) hav,
                 fun a d h hval _ _ => absurd (h.symm ▸ hval) hav,
                 fun a d h hval _ _ _ => absurd (h.symm ▸ hval) hav⟩
        · simp [TrustVerifier.verify, h1, hac, hav, hexp]
          exact ⟨fun a d h hval _ => absurd (h.symm ▸ hval) hav,
                 fun a d h hval _ _ => absurd (h.symm ▸ hval) hav,
                 fun a d h hval _ _ _ => absurd (h.symm ▸ hval) hav⟩

/-- A root-issued domain certificate for domain 1. -/
def certD1 : Certificate :=
  { authority_id := 0, domain := 1, name := "Domain One Authority"
    valid_from := 0, valid_until := 100, issuer_id := 0 }

/-- A domain-issued authority certificate for authority 2 in domain 1. -/
def certA2 : Certificate :=
  { authority_id := 2, domain := 1, name := "Authority Two"
    valid_from := 0, valid_until := 100, issuer_id := 0 }

/-- A concrete verifier holding the two certificates above. -/
def verifierW : TrustVerifier :=
  { domain_certs := [(1, certD1)], authority_certs := [((1, 2), certA2)] }

/-- Witness for C1 at a concrete verifier, authority and instant. -/
theorem trust_verify_spec_witness :
    ("sig" : String) ≠ "" ∧
    verifierW.verify 1 2 "sig" 10 =
      { valid := true, reason := "Trust chain verified"
        authority_name := "Authority Two", chain_length := 2 } := by
  refine ⟨by decide, ?_⟩
  have h := trust_verify_spec verifierW 1 2 "sig" 10 (by decide)
  exact h.2.1 certA2 (by decide) (by decide) (by decide) certD1 (by decide)
    (by decide) (by decide) (by decide)

end UASC

namespace UASC

/-! ## Claim C2: binary round-trip -/

/-- `x &&& 255 = x % 256` (and friends): the bit masks the codec uses are
`mod` by the corresponding power of two. -/
theorem and_mask_eq_mod (x : Nat) :
    x &&& 15 = x % 16 ∧ x &&& 255 = x % 256 ∧ x &&& 4095 = x % 4096 ∧
    x &&& 65535 = x % 65536 := by
  have h4 := Nat.and_pow_two_sub_one_eq_mod x 4
  have h8 := Nat.and_pow_two_sub_one_eq_mod x 8
  have h12 := Nat.and_pow_two_sub_one_eq_mod x 12
  have h16 := Nat.and_pow_two_sub_one_eq_mod x 16
  norm_num at h4 h8 h12 h16
  exact ⟨h4, h8, h12, h16⟩

/-- Packing three bounded fields with shifts and `|||` is plain positional
arithmetic. -/
theorem packed_fields_eq (d a g : Nat) (ha : a < 4096) (hg : g < 65536) :
    ((d % 16) <<< 28) ||| ((a % 4096) <<< 16) ||| (g % 65536) =
      d % 16 * 268435456 + a * 65536 + g := by
  rw [Nat.mod_eq_of_lt ha, Nat.mod_eq_of_lt hg, Nat.shiftLeft_eq, Nat.shiftLeft_eq]
  have o1 : (d % 16) * 2 ^ 28 ||| a * 2 ^ 16 = (d % 16) * 2 ^ 28 + a * 2 ^ 16 := by
    have h := Nat.mul_add_lt_is_or (i := 28) (b := a * 2 ^ 16)
      (by norm_num; omega) (d % 16)
    rw [Nat.mul_comm (d % 16) (2 ^ 28)]
    exact h.symm
  rw [o1]
  have e : (d % 16) * 2 ^ 28 + a * 2 ^ 16 = 2 ^ 16 * ((d % 16) * 4096 + a) := by ring
  have o2 : (d % 16) * 2 ^ 28 + a * 2 ^ 16 ||| g =
      (d % 16) * 2 ^ 28 + a * 2 ^ 16 + g := by
    rw [e]
    exact (Nat.mul_add_lt_is_or (by norm_num; omega) ((d % 16) * 4096 + a)).symm
  rw [o2]
  norm_num

/-- Packing the three context bytes with shifts and `|||` is plain
positional arithmetic. -/
theorem ctx_packed_eq (z p mc : Nat) (_hz : z < 256) (hp : p < 256)
    (hmc : mc < 256) :
    (z <<< 24) ||| (p <<< 16) ||| (mc <<< 8) =
      z * 16777216 + p * 65536 + mc * 256 := by
  rw [Nat.shiftLeft_eq, Nat.shiftLeft_eq, Nat.shiftLeft_eq]
  have o1 : z * 2 ^ 24 ||| p * 2 ^ 16 = z * 2 ^ 24 + p * 2 ^ 16 := by
    have h := Nat.mul_add_lt_is_or (i := 24) (b := p * 2 ^ 16)
      (by norm_num; omega) z
    rw [Nat.mul_comm z (2 ^ 24)]
    exact h.symm
  rw [o1]
  have e : z * 2 ^ 24 + p * 2 ^ 16 = 2 ^ 16 * (z * 256 + p) := by ring
  have o2 : z * 2 ^ 24 + p * 2 ^ 16 ||| mc * 2 ^ 8 =
      z * 2 ^ 24 + p * 2 ^ 16 + mc * 2 ^ 8 := by
    rw [e]
    exact (Nat.mul_add_lt_is_or (i := 16) (b := mc * 2 ^ 8)
      (by norm_num; omega) (z * 256 + p)).symm
  rw [o2]
  norm_num

/-- Unpacking the four big-endian bytes of a 32-bit word recovers it. -/
theorem unpack32_pack32 (x : Nat) (hx : x < 4294967296) :
    unpack32 (pack32 x) = x := by
  simp [pack32, unpack32]
  omega

/-- `decode` on a lone packed word. -/
theorem decode_pack32 (x : Nat) (hx : x < 4294967296) :
    GlyphCodec.decode (pack32 x) =
      .ok { domain := (x >>> 28) &&& 15, authority := (x >>> 16) &&& 4095,
            glyph_code := x &&& 65535 } := by
  have hlen : (pack32 x).length = 4 := by simp [pack32]
  have htake : (pack32 x).take 4 = pack32 x := by simp [pack32]
  unfold GlyphCodec.decode
  rw [hlen, htake, unpack32_pack32 x hx]
  norm_num

/-- `decode` on a packed word followed by a packed context word. -/
theorem decode_pack32_ext (x y : Nat) (hx : x < 4294967296) (hy : y < 4294967296) :
    GlyphCodec.decode (pack32 x ++ pack32 y) =
      .ok { domain := (x >>> 28) &&& 15, authority := (x >>> 16) &&& 4095,
            glyph_code := x &&& 65535,
            context := some (GlyphCodec._decode_context y) } := by
  have hlen : (pack32 x ++ pack32 y).length = 8 := by simp [pack32]
  have htake : (pack32 x ++ pack32 y).take 4 = pack32 x := by simp [pack32]
  have hdrop : ((pack32 x ++ pack32 y).drop 4).take 4 = pack32 y := by simp [pack32]
  unfold GlyphCodec.decode
  rw [hlen, htake, hdrop, unpack32_pack32 x hx, unpack32_pack32 y hy]
  norm_num

/-- Field extraction from a packed compact word. -/
theorem extract_fields (d a g : Nat) (hd : d < 16) (ha : a < 4096) (hg : g < 65536) :
    ((d * 268435456 + a * 65536 + g) >>> 28) &&& 15 = d ∧
    ((d * 268435456 + a * 65536 + g) >>> 16) &&& 4095 = a ∧
    (d * 268435456 + a * 65536 + g) &&& 65535 = g := by
  rw [Nat.shiftRight_eq_div_pow, Nat.shiftRight_eq_div_pow,
    (and_mask_eq_mod _).1, (and_mask_eq_mod _).2.2.1, (and_mask_eq_mod _).2.2.2]
  norm_num
  refine ⟨by omega, by omega, by omega⟩

/-- Byte extraction from a packed context word. -/
theorem extract_ctx_fields (z p mc : Nat) (hz : z < 256) (hp : p < 256)
    (hmc : mc < 256) :
    ((z * 16777216 + p * 65536 + mc * 256) >>> 24) &&& 255 = z ∧
    ((z * 16777216 + p * 65536 + mc * 256) >>> 16) &&& 255 = p ∧
    ((z * 16777216 + p * 65536 + mc * 256) >>> 8) &&& 255 = mc := by
  rw [Nat.shiftRight_eq_div_pow, Nat.shiftRight_eq_div_pow,
    Nat.shiftRight_eq_div_pow, (and_mask_eq_mod _).2.1, (and_mask_eq_mod _).2.1,
    (and_mask_eq_mod _).2.1]
  norm_num
  refine ⟨by omega, by omega, by omega⟩

/-- The packed word `encode` computes, in arithmetic form. -/
theorem encode_packed_eq (d a g : Nat) (hd : d < 16) (ha : a < 4096)
    (hg : g < 65536) :
    ((d &&& 15) <<< 28) ||| ((a &&& 4095) <<< 16) ||| (g &&& 65535) =
      d * 268435456 + a * 65536 + g := by
  rw [(and_mask_eq_mod d).1, (and_mask_eq_mod a).2.2.1, (and_mask_eq_mod g).2.2.2,
    packed_fields_eq d a g ha hg, Nat.mod_eq_of_lt hd]

/-- `modeToCode` is always a byte. -/
theorem modeToCode_lt (v : PyVal) : modeToCode v < 256 := by
  unfold modeToCode
  split <;> omega

/-- Python `int & 0xFF` on a natural-number context value. -/
theorem maskByte_coe (z : Nat) : maskByte z = z % 256 := by
  unfold maskByte
  omega

/-- `_encode_context` on the canonical fixed-field dict, in arithmetic
form. -/
theorem encode_context_fixed (z p : Nat) (m : String) (hz : z < 256)
    (hp : p < 256) :
    GlyphCodec._encode_context
      [("zone", .int z), ("priority", .int p), ("mode", .str m)] =
    .ok (z * 16777216 + p * 65536 + modeToCode (.str m) * 256) := by
  have hmc := modeToCode_lt (.str m)
  have h1 : alookup [(("zone" : String), PyVal.int z), ("priority", .int p),
      ("mode", .str m)] "zone" = some (.int z) := by
    simp [alookup]
  have h2 : alookup [(("zone" : String), PyVal.int z), ("priority", .int p),
      ("mode", .str m)] "priority" = some (.int p) := by
    simp [alookup]
  have h3 : alookup [(("zone" : String), PyVal.int z), ("priority", .int p),
      ("mode", .str m)] "mode" = some (.str m) := by
    simp [alookup]
  simp only [GlyphCodec._encode_context, h1, h2, h3]
  simp [pyInt, bind, Except.bind, maskByte_coe, Nat.mod_eq_of_lt hz,
    Nat.mod_eq_of_lt hp, Nat.mod_eq_of_lt hmc]
  rw [ctx_packed_eq z p (modeToCode (.str m)) hz hp hmc]
  rfl

/-- `_decode_context` on an arithmetic-form context word. -/
theorem decode_context_fixed (z p mc : Nat) (hz : z < 256) (hp : p < 256)
    (hmc : mc < 256) :
    GlyphCodec._decode_context (z * 16777216 + p * 65536 + mc * 256) =
      [("zone", .int z), ("priority", .int p), ("mode", .str (codeToMode mc))] := by
  have hext := extract_ctx_fields z p mc hz hp hmc
  unfold GlyphCodec._decode_context
  rw [hext.1, hext.2.1, hext.2.2]

/-- C2.  Binary round-trip: for every frame with in-range fields and no
context, `decode (encode f) = f`; and with a context holding exactly the
fixed fields (`zone`, `priority` bytes and one of the four mode names),
the same round-trip holds through the 8-byte extended form. -/
theorem glyph_binary_roundtrip (d a g : Nat) (hd : d < 16) (ha : a < 4096)
    (hg : g < 65536) :
    ((GlyphCodec.encode { domain := d, authority := a, glyph_code := g }).bind
        GlyphCodec.decode =
      .ok { domain := d, authority := a, glyph_code := g }) ∧
    (∀ z p : Nat, ∀ m : String, z < 256 → p < 256 →
      m ∈ (["normal", "emergency", "maintenance", "test"] : List String) →
      (GlyphCodec.encode
          { domain := d, authority := a, glyph_code := g,
            context :=
              some [("zone", .int z), ("priority", .int p),
                ("mode", .str m)] }).bind GlyphCodec.decode =
      .ok { domain := d, authority := a, glyph_code := g,
            context :=
              some [("zone", .int z), ("priority", .int p),
                ("mode", .str m)] }) := by
  have hfields := extract_fields d a g hd ha hg
  constructor
  · show GlyphCodec.decode (pack32 _) = _
    rw [encode_packed_eq d a g hd ha hg, decode_pack32 _ (by omega)]
    rw [hfields.1, hfields.2.1, hfields.2.2]
  · intro z p m hz hp hm
    have hmc := modeToCode_lt (.str m)
    have henc : GlyphCodec.encode
        { domain := d, authority := a, glyph_code := g,
          context :=
            some [("zone", .int z), ("priority", .int p), ("mode", .str m)] } =
        .ok (pack32 (((d &&& 15) <<< 28) ||| ((a &&& 4095) <<< 16) |||
            (g &&& 65535)) ++
          pack32 (z * 16777216 + p * 65536 + modeToCode (.str m) * 256)) := by
      unfold GlyphCodec.encode
      simp only [ctxTruthy]
      norm_num [encode_context_fixed z p m hz hp]
    rw [henc]
    show GlyphCodec.decode _ = _
    rw [encode_packed_eq d a g hd ha hg,
      decode_pack32_ext _ _ (by omega) (by omega),
      decode_context_fixed z p _ hz hp (by omega),
      hfields.1, hfields.2.1, hfields.2.2]
    have : codeToMode (modeToCode (.str m)) = m := by
      simp only [List.mem_cons, List.not_mem_nil, or_false] at hm
      rcases hm with rfl | rfl | rfl | rfl <;> rfl
    rw [this]

/-- Witness for C2 at a concrete frame. -/
theorem glyph_binary_roundtrip_witness :
    ((GlyphCodec.encode { domain := 1, authority := 66, glyph_code := 32771 }).bind
        GlyphCodec.decode =
      .ok { domain := 1, authority := 66, glyph_code := 32771 }) ∧
    ((GlyphCodec.encode
        { domain := 1, authority := 66, glyph_code := 32771,
          context :=
            some [("zone", .int 5), ("priority", .int 2),
              ("mode", .str "emergency")] }).bind GlyphCodec.decode =
      .ok { domain := 1, authority := 66, glyph_code := 32771,
            context :=
              some [("zone", .int 5), ("priority", .int 2),
                ("mode", .str "emergency")] }) := by
  have h := glyph_binary_roundtrip 1 66 32771 (by omega) (by omega) (by omega)
  exact ⟨h.1, h.2 5 2 "emergency" (by omega) (by omega) (by simp)⟩

end UASC

namespace UASC

/-! ## Claim C3: revocation is terminal -/

/-- The state-mutating registry operations a caller can run (a raising call
leaves the registry unchanged, as the exception propagates before any
mutation). -/
inductive RegOp where
| registerGraph (g : ExecutionGraph)
| bindGlyph (glyph_code : Nat) (graph_id : String) (validity_days : Nat) (now : Nat)
| revoke (glyph_code : Nat) (reason : String)

/-- Apply one operation to a registry, keeping the old state when the
operation raises. -/
def applyRegOp (r : Registry) : RegOp → Registry
| .registerGraph g =>
  match r.register_graph g with
  | .ok (_, r') => r'
  | .error _ => r
| .bindGlyph code gid days now =>
  match r.bind_glyph code gid days now with
  | .ok (_, r') => r'
  | .error _ => r
| .revoke code reason =>
  match r.revoke code reason with
  | .ok r' => r'
  | .error _ => r

/-- Apply a sequence of operations left to right. -/
def applyRegOps (r : Registry) (ops : List RegOp) : Registry :=
  ops.foldl applyRegOp r

/-- No registry operation ever removes a code from the revocation list. -/
theorem applyRegOp_preserves_revocation (r : Registry) (op : RegOp) (c : Nat)
    (hc : c ∈ r.revocations) : c ∈ (applyRegOp r op).revocations := by
  cases op with
  | registerGraph g =>
    simp only [applyRegOp, Registry.register_graph]
    split
    next fst r' heq =>
      split at heq
      · cases heq
      · cases heq
        exact hc
    next a heq => exact hc
  | bindGlyph code gid days now =>
    simp only [applyRegOp, Registry.bind_glyph]
    split
    next fst r' heq =>
      split at heq
      · cases heq
      · split at heq
        · cases heq
        · cases heq
          exact hc
    next a heq => exact hc
  | revoke code reason =>
    simp only [applyRegOp, Registry.revoke]
    split
    next r' heq =>
      split at heq
      · cases heq
      · cases heq
        exact List.mem_append_left _ hc
    next a heq => exact hc

/-- A revoked code is never returned by `lookup`. -/
theorem lookup_of_revoked (r : Registry) (c : Nat) (hc : c ∈ r.revocations)
    (now : Nat) : r.lookup c now = Option.none := by
  unfold Registry.lookup
  simp [hc]

/-- C3.  Revocation is terminal: once `revoke c` has succeeded, `lookup c`
returns `None` in every state reachable by any further sequence of
`register_graph` / `bind_glyph` / `revoke` calls — re-binding the code does
not resurrect it. -/
theorem revocation_terminal (r : Registry) (c : Nat) (reason : String)
    (r' : Registry) (hrev : r.revoke c reason = .ok r') :
    ∀ (ops : List RegOp) (now : Nat),
      (applyRegOps r' ops).lookup c now = Option.none := by
  have hc : c ∈ r'.revocations := by
    unfold Registry.revoke at hrev
    split at hrev
    · cases hrev
    · cases hrev
      exact List.mem_append_right _ (List.mem_singleton.mpr rfl)
  have key : ∀ (ops : List RegOp) (s : Registry), c ∈ s.revocations →
      c ∈ (applyRegOps s ops).revocations := by
    intro ops
    induction ops with
    | nil => intro s hs; exact hs
    | cons op rest ih =>
      intro s hs
      exact ih (applyRegOp s op) (applyRegOp_preserves_revocation s op c hs)
  intro ops now
  exact lookup_of_revoked _ c (key ops r' hc) now

/-- A registry with one valid graph bound to code `0x8001`. -/
def graphW : ExecutionGraph :=
  { graph_id := "gW"
    nodes := [("start", { type? := some "entry", next? := some "done" }),
              ("done", { type? := some "exit" })] }

/-- A registry holding `graphW`, with `0x8001` bound to it at instant 0. -/
def registryW : Registry :=
  { registry_id := "regW", domain := 1, authority := 2
    graphs := [("gW", graphW)]
    bindings := [(0x8001,
      { glyph_code := 0x8001, graph_id := "gW", authority := 2
        valid_from := 0, valid_until := 1000, signature := "s" })] }

/-- Witness for C3: revoke `0x8001`, then re-bind it — `lookup` still
returns `None`. -/
theorem revocation_terminal_witness :
    registryW.revoke 0x8001 "compromised" =
      .ok { registryW with revocations := [0x8001] } ∧
    (applyRegOps { registryW with revocations := [0x8001] }
        [.bindGlyph 0x8001 "gW" 365 5]).lookup 0x8001 7 = Option.none := by
  constructor
  · rfl
  · exact revocation_terminal registryW 0x8001 "compromised"
      { registryW with revocations := [0x8001] } (by rfl)
      [.bindGlyph 0x8001 "gW" 365 5] 7

end UASC

namespace UASC

/-! ## Claim C8: `bind_glyph` range and error behaviour -/

/-- The binding record `bind_glyph` constructs on success. -/
def boundBinding (r : Registry) (code : Nat) (gid : String) (days now : Nat) :
    GlyphBinding :=
  { glyph_code := code, graph_id := gid, authority := r.authority,
    valid_from := now, valid_until := now + days * 86400,
    signature := r._sign_binding code gid }

/-- C8.  `bind_glyph` raises the unknown-graph error when `graph_id` is
absent (checked first, whatever the code); with the graph present it raises
the out-of-range error exactly when the code lies outside
`[0x8000, 0xFFFE]`, and otherwise stores a binding whose validity window
starts at `now` and spans `validity_days` days.  A raising call returns no
new registry state (the caller's state is unchanged). -/
theorem bind_glyph_spec (r : Registry) (code : Nat) (gid : String)
    (days now : Nat) :
    ((alookup r.graphs gid).isNone →
      r.bind_glyph code gid days now =
        .error (.valueError ("Graph '" ++ gid ++ "' not found in registry"))) ∧
    ((alookup r.graphs gid).isSome →
      ((code < 0x8000 ∨ 0xFFFE < code) →
        r.bind_glyph code gid days now =
          .error (.valueError ("Glyph code 0x" ++ hex4 code ++
            " outside valid range"))) ∧
      (0x8000 ≤ code → code ≤ 0xFFFE →
        r.bind_glyph code gid days now =
          .ok (boundBinding r code gid days now,
            { r with
              bindings :=
                aset r.bindings code (boundBinding r code gid days now) }))) ∧
    ((boundBinding r code gid days now).valid_until -
        (boundBinding r code gid days now).valid_from = days * 86400) ∧
    (∀ e, r.bind_glyph code gid days now = .error e →
      applyRegOp r (.bindGlyph code gid days now) = r) := by
  refine ⟨?_, ?_, ?_, ?_⟩
  · intro habs
    simp [Registry.bind_glyph, habs]
  · intro hsome
    have hnn : ¬((alookup r.graphs gid).isNone = true) := by
      cases halook : alookup r.graphs gid <;> simp_all
    constructor
    · intro hout
      simp only [Registry.bind_glyph]
      rw [if_neg hnn, if_pos (by omega)]
    · intro hlo hhi
      simp only [Registry.bind_glyph]
      rw [if_neg hnn, if_neg (by omega)]
      rfl
  · simp [boundBinding]
  · intro e he
    simp only [applyRegOp, he]

/-- Witness for C8: both boundary codes succeed, both out-by-one codes
raise the range error, and an unknown graph id raises the graph error
first. -/
theorem bind_glyph_spec_witness :
    (registryW.bind_glyph 0x8000 "gW" 365 5 =
      .ok (boundBinding registryW 0x8000 "gW" 365 5,
        { registryW with
          bindings :=
            aset registryW.bindings 0x8000
              (boundBinding registryW 0x8000 "gW" 365 5) })) ∧
    (registryW.bind_glyph 0xFFFE "gW" 365 5 =
      .ok (boundBinding registryW 0xFFFE "gW" 365 5,
        { registryW with
          bindings :=
            aset registryW.bindings 0xFFFE
              (boundBinding registryW 0xFFFE "gW" 365 5) })) ∧
    (registryW.bind_glyph 0x7FFF "gW" 365 5 =
      .error (.valueError ("Glyph code 0x" ++ hex4 0x7FFF ++
        " outside valid range"))) ∧
    (registryW.bind_glyph 0xFFFF "gW" 365 5 =
      .error (.valueError ("Glyph code 0x" ++ hex4 0xFFFF ++
        " outside valid range"))) ∧
    (registryW.bind_glyph 0x8001 "missing" 365 5 =
      .error (.valueError ("Graph 'missing' not found in registry"))) := by
  refine ⟨?_, ?_, ?_, ?_, ?_⟩
  · exact ((bind_glyph_spec registryW 0x8000 "gW" 365 5).2.1
      (by decide)).2 (by omega) (by omega)
  · exact ((bind_glyph_spec registryW 0xFFFE "gW" 365 5).2.1
      (by decide)).2 (by omega) (by omega)
  · exact ((bind_glyph_spec registryW 0x7FFF "gW" 365 5).2.1
      (by decide)).1 (by omega)
  · exact ((bind_glyph_spec registryW 0xFFFF "gW" 365 5).2.1
      (by decide)).1 (by omega)
  · exact (bind_glyph_spec registryW 0x8001 "missing" 365 5).1 (by decide)

end UASC

namespace UASC

/-! ## Claim C6: `register_graph` validation -/

/-- The start-node component of `validate` is empty iff a start node
exists. -/
theorem validate_start_nil (g : ExecutionGraph) :
    ((if (alookup g.nodes "start").isNone then ["Missing 'start' node"]
      else []) = ([] : List String)) ↔ (alookup g.nodes "start").isSome := by
  cases halook : alookup g.nodes "start" <;> simp [halook]

/-- The reference component of `validate` is empty iff every checked
reference resolves. -/
theorem validate_refs_nil (g : ExecutionGraph) :
    (g.nodes.flatMap (fun p =>
      (nodeRefTargets p.2).filterMap (fun tgt =>
        if (alookup g.nodes tgt).isNone then
          some ("Node '" ++ p.1 ++ "' references unknown node '" ++ tgt ++ "'")
        else
          Option.none)) = []) ↔
    (∀ p ∈ g.nodes, ∀ t ∈ nodeRefTargets p.2, (alookup g.nodes t).isSome) := by
  rw [List.flatMap_eq_nil_iff]
  constructor
  · intro h p hp t ht
    have h4 := List.filterMap_eq_nil_iff.mp (h p hp) t ht
    cases halook : alookup g.nodes t with
    | none =>
      rw [halook] at h4
      simp at h4
    | some x => simp [halook]
  · intro h p hp
    apply List.filterMap_eq_nil_iff.mpr
    intro t ht
    have hsome := h p hp t ht
    cases halook : alookup g.nodes t with
    | none =>
      rw [halook] at hsome
      simp at hsome
    | some x => simp

/-- The exit-node component of `validate` is empty iff an exit node
exists. -/
theorem validate_exit_nil (g : ExecutionGraph) :
    ((if g.nodes.any (fun p => p.2.type? = some "exit") then []
      else ["No exit node defined"]) = ([] : List String)) ↔
    (∃ p ∈ g.nodes, p.2.type? = some "exit") := by
  constructor
  · intro h
    by_cases hany : (g.nodes.any (fun p => p.2.type? = some "exit")) = true
    · simpa using List.any_eq_true.mp hany
    · rw [if_neg hany] at h
      simp at h
  · intro hex
    rw [if_pos]
    exact List.any_eq_true.mpr (by simpa using hex)

/-- C6 (amended).  `register_graph` raises exactly when the graph violates
a checked structural invariant — no `"start"` node, a dangling `next` /
`on_true` / `on_false` reference, or no `"exit"`-typed node — the raised
message lists every violation found, and a violation-free graph is stored
under its graph_id, which is returned.  (`on_error` references are *not*
checked by `validate`.) -/
theorem register_graph_spec (r : Registry) (g : ExecutionGraph) :
    (g.validate = [] ↔
      ((alookup g.nodes "start").isSome ∧
       (∀ p ∈ g.nodes, ∀ t ∈ nodeRefTargets p.2, (alookup g.nodes t).isSome) ∧
       (∃ p ∈ g.nodes, p.2.type? = some "exit"))) ∧
    (g.validate = [] →
      r.register_graph g =
        .ok (g.graph_id, { r with graphs := aset r.graphs g.graph_id g })) ∧
    (g.validate ≠ [] →
      r.register_graph g =
        .error (.valueError ("Invalid graph: " ++ pyListRepr g.validate))) ∧
    ((alookup g.nodes "start").isNone → "Missing 'start' node" ∈ g.validate) ∧
    (∀ p ∈ g.nodes, ∀ t ∈ nodeRefTargets p.2, (alookup g.nodes t).isNone →
      ("Node '" ++ p.1 ++ "' references unknown node '" ++ t ++ "'")
        ∈ g.validate) ∧
    ((∀ p ∈ g.nodes, p.2.type? ≠ some "exit") →
      "No exit node defined" ∈ g.validate) := by
  refine ⟨?_, ?_, ?_, ?_, ?_, ?_⟩
  · unfold ExecutionGraph.validate
    rw [List.append_eq_nil, List.append_eq_nil]
    rw [validate_start_nil g, validate_refs_nil g, validate_exit_nil g]
    tauto
  · intro hval
    simp [Registry.register_graph, hval]
  · intro hval
    simp [Registry.register_graph, hval]
  · intro hstart
    unfold ExecutionGraph.validate
    rw [if_pos hstart]
    exact List.mem_append_left _ (List.mem_append_left _ (by simp))
  · intro p hp t ht hdangling
    unfold ExecutionGraph.validate
    refine List.mem_append_left _ (List.mem_append_right _ ?_)
    apply List.mem_flatMap.mpr
    refine ⟨p, hp, ?_⟩
    apply List.mem_filterMap.mpr
    refine ⟨t, ht, ?_⟩
    rw [if_pos hdangling]
  · intro hnoexit
    unfold ExecutionGraph.validate
    refine List.mem_append_right _ ?_
    rw [if_neg]
    · simp
    · intro hany
      obtain ⟨p, hp, hq⟩ := List.any_eq_true.mp hany
      exact hnoexit p hp (of_decide_eq_true hq)

/-- Witness for C6: a well-formed two-node graph registers successfully and
a start-less, exit-less graph yields both violations in the error list. -/
theorem register_graph_spec_witness :
    (registryW.register_graph graphW =
      .ok ("gW", { registryW with
                    graphs := aset registryW.graphs "gW" graphW })) ∧
    ("Missing 'start' node" ∈
      (ExecutionGraph.mk "bad" "" "" "" [] []
        [("lone", { next? := some "ghost" })] [] []).validate) ∧
    ("No exit node defined" ∈
      (ExecutionGraph.mk "bad" "" "" "" [] []
        [("lone", { next? := some "ghost" })] [] []).validate) := by
  refine ⟨?_, ?_, ?_⟩
  · exact (register_graph_spec registryW graphW).2.1 (by decide)
  · exact (register_graph_spec registryW _).2.2.2.1 (by decide)
  · exact (register_graph_spec registryW _).2.2.2.2.2 (by decide)

/-- A graph whose only flaw is an `on_error` reference to a node that does
not exist. -/
def graphGhostOnError : ExecutionGraph :=
  { graph_id := "gE"
    nodes := [("start", { type? := some "action", operation? := some "op",
                          next? := some "done", on_error? := some "ghost" }),
              ("done", { type? := some "exit" })] }

/-- Counterexample to C6 as stated: the `on_error` target `"ghost"` names
no node, yet `register_graph` succeeds instead of raising — `validate`
checks only `next`, `on_true` and `on_false` references. -/
theorem register_graph_counterexample :
    (alookup graphGhostOnError.nodes "start").map Node.on_error? =
      some (some "ghost") ∧
    alookup graphGhostOnError.nodes "ghost" = Option.none ∧
    registryW.register_graph graphGhostOnError =
      .ok ("gE", { registryW with
                    graphs := aset registryW.graphs "gE" graphGhostOnError }) := by
  refine ⟨rfl, rfl, rfl⟩

end UASC



namespace UASC

/-! ## Claim C5: graph-walk termination -/

/-- A successful association-list lookup pinpoints a member. -/
theorem alookup_mem {κ α : Type} [DecidableEq κ] :
    ∀ (l : List (κ × α)) (k : κ) (v : α), alookup l k = some v → (k, v) ∈ l := by
  intro l
  induction l with
  | nil => intro k v h; cases h
  | cons kv rest ih =>
    obtain ⟨k', v'⟩ := kv
    intro k v h
    unfold alookup at h
    by_cases hk : k' = k
    · rw [if_pos hk] at h
      cases h
      subst hk
      exact List.mem_cons_self _ _
    · rw [if_neg hk] at h
      exact List.mem_cons_of_mem _ (ih k v h)

/-- Every iteration of the walk appends at most one trace entry: a normal
return carries at most `trace.length + fuel` entries. -/
theorem execGraphLoop_trace_le (acts : ActionHandlers) (oracle : EvalOracle)
    (g : ExecutionGraph) :
    ∀ (fuel : Nat) (cur : String) (ctx : ExecutionContext) (trace : List String)
      (out : GraphOutcome),
      execGraphLoop acts oracle g fuel cur ctx trace = .ok out →
      out.trace.length ≤ trace.length + fuel := by
  intro fuel
  induction fuel with
  | zero =>
    intro cur ctx trace out h
    cases h
    simp
  | succ n ih =>
    intro cur ctx trace out h
    simp only [execGraphLoop] at h
    cases halook : alookup g.nodes cur with
    | none =>
      simp only [halook] at h
      cases h
      simp
    | some node =>
      simp only [halook] at h
      split at h
      · have := ih _ _ _ _ h
        simp at this ⊢
        omega
      · split at h
        · cases h
          simp
        · split at h
          · split at h
            · have := ih _ _ _ _ h
              simp at this ⊢
              omega
            · split at h
              · have := ih _ _ _ _ h
                simp at this ⊢
                omega
              · cases h
          · split at h
            · split at h
              · cases h
              · have := ih _ _ _ _ h
                simp at this ⊢
                omega
            · cases h
              simp

/-- On a graph of entry nodes whose `next` pointers all stay inside the
graph, the walk consumes all its fuel and reports the iteration cap, one
trace entry per iteration. -/
theorem execGraphLoop_cycle (acts : ActionHandlers) (oracle : EvalOracle)
    (g : ExecutionGraph) (ctx : ExecutionContext)
    (hcyc : ∀ p ∈ g.nodes, p.2.type?.getD "action" = "entry" ∧
      (alookup g.nodes (p.2.next?.getD "end")).isSome) :
    ∀ (fuel : Nat) (cur : String) (trace : List String),
      (alookup g.nodes cur).isSome →
      ∃ tr, execGraphLoop acts oracle g fuel cur ctx trace =
        .ok { status := "failed",
              error := some "Max iterations exceeded - possible infinite loop",
              trace := tr } ∧ tr.length = trace.length + fuel := by
  intro fuel
  induction fuel with
  | zero =>
    intro cur trace hcur
    exact ⟨trace, rfl, by simp⟩
  | succ n ih =>
    intro cur trace hcur
    obtain ⟨node, halook⟩ := Option.isSome_iff_exists.mp hcur
    have hmem : (cur, node) ∈ g.nodes := alookup_mem _ _ _ halook
    have hn := hcyc (cur, node) hmem
    obtain ⟨tr, hrun, hlen⟩ := ih (node.next?.getD "end") (trace ++ [cur]) hn.2
    refine ⟨tr, ?_, by simp at hlen ⊢; omega⟩
    have hstep : execGraphLoop acts oracle g (n + 1) cur ctx trace =
        execGraphLoop acts oracle g n (node.next?.getD "end") ctx (trace ++ [cur]) := by
      simp only [execGraphLoop, halook]
      simp [hn.1]
    rw [hstep]
    exact hrun

/-- C5.  The graph walk performs at most `max_iterations` node steps, and a
cyclic graph with no reachable exit fails with the max-iterations reason
after exactly `max_iterations` iterations — one trace entry each — instead
of looping forever. -/
theorem graph_walk_termination (acts : ActionHandlers) (oracle : EvalOracle)
    (g : ExecutionGraph) (maxIter : Nat) (ctx : ExecutionContext) :
    (∀ out, Interpreter._execute_graph acts oracle maxIter g ctx = .ok out →
      out.trace.length ≤ maxIter) ∧
    (((alookup g.nodes "start").isSome ∧
      (∀ p ∈ g.nodes, p.2.type?.getD "action" = "entry" ∧
        (alookup g.nodes (p.2.next?.getD "end")).isSome)) →
      ∃ tr, Interpreter._execute_graph acts oracle maxIter g ctx =
        .ok { status := "failed",
              error := some "Max iterations exceeded - possible infinite loop",
              trace := tr } ∧ tr.length = maxIter) := by
  constructor
  · intro out h
    have := execGraphLoop_trace_le acts oracle g maxIter "start" ctx [] out h
    simpa using this
  · rintro ⟨hstart, hcyc⟩
    obtain ⟨tr, hrun, hlen⟩ :=
      execGraphLoop_cycle acts oracle g ctx hcyc maxIter "start" [] hstart
    exact ⟨tr, hrun, by simpa using hlen⟩

/-- A two-node cycle of entry nodes with no exit. -/
def graphCycle : ExecutionGraph :=
  { graph_id := "gCyc"
    nodes := [("start", { type? := some "entry", next? := some "loop" }),
              ("loop", { type? := some "entry", next? := some "start" })] }

/-- An evaluation oracle that always raises (any oracle works for the
witnesses that never consult it). -/
def oracleFail : EvalOracle := fun _ _ => .error (.error "eval failed")

/-- Witness for C5: the cyclic graph exhausts the default cap of 100 with
exactly 100 trace entries. -/
theorem graph_walk_termination_witness :
    ∃ tr, Interpreter._execute_graph [] oracleFail 100 graphCycle
        { parameters := [], system := [], node_results := [] } =
      .ok { status := "failed",
            error := some "Max iterations exceeded - possible infinite loop",
            trace := tr } ∧ tr.length = 100 :=
  (graph_walk_termination [] oracleFail graphCycle 100
    { parameters := [], system := [], node_results := [] }).2 (by decide)

end UASC

namespace UASC

/-! ## Claim C4: does `execute` ever raise? -/

/-- A structurally valid graph whose `inputs` list contains an input
declaration dict with no `'name'` key. -/
def graphBadInputs : ExecutionGraph :=
  { graph_id := "gBad"
    inputs := [{}]
    nodes := [("start", { type? := some "entry", next? := some "done" }),
              ("done", { type? := some "exit" })] }

/-- A registry binding code `0x8001` to `graphBadInputs` with a valid
window and a non-empty signature. -/
def registryBad : Registry :=
  { registry_id := "regBad", domain := 1, authority := 2
    graphs := [("gBad", graphBadInputs)]
    bindings := [(0x8001,
      { glyph_code := 0x8001, graph_id := "gBad", authority := 2
        valid_from := 0, valid_until := 1000, signature := "s" })] }

/-- The interpreter over that registry and the witness trust chain. -/
def interpBad : Interpreter :=
  { registry := registryBad, trust := verifierW, actions := [] }

/-- C4 fails on the code: `graphBadInputs` passes graph validation, the
binding and trust chain are in order, yet `execute` propagates the
`KeyError` that `_build_context` raises on the name-less input declaration
— only `ValueError` is caught around stage 4, so this call returns no
`ExecutionResult` at all. -/
theorem execute_key_error_escape :
    graphBadInputs.validate = [] ∧
    Interpreter.execute oracleFail interpBad
        { domain := 1, authority := 2, glyph_code := 0x8001 } 10 =
      .error (.keyError "name") :=
  ⟨rfl, rfl⟩

end UASC

namespace UASC

/-! ## Claim C7: the execution log -/

/-- Does this call reach stage 6 (`_log_execution`)?  True exactly when the
binding, trust chain, graph, context and graph walk all come through. -/
def logsExecution (oracle : EvalOracle) (I : Interpreter) (frame : GlyphFrame)
    (now : Nat) : Bool :=
  match I.registry.get_binding frame.glyph_code with
  | Option.none => false
  | some binding =>
    if !(I.trust.verify frame.domain frame.authority binding.signature now).valid
    then false
    else
      match I.registry.lookup frame.glyph_code now with
      | Option.none => false
      | some graph =>
        match Interpreter._build_context frame graph now with
        | .error _ => false
        | .ok context =>
          match Interpreter._execute_graph I.actions oracle I.max_iterations
              graph context with
          | .error _ => false
          | .ok _ => true

/-- The authority display name the log entry records. -/
def authorityNameFor (I : Interpreter) (frame : GlyphFrame) (now : Nat) : String :=
  match I.registry.get_binding frame.glyph_code with
  | some binding =>
    (I.trust.verify frame.domain frame.authority binding.signature now).authority_name
  | Option.none => ""

/-- C7 (amended).  A returning `execute` call appends exactly one summary
entry when and only when the pipeline reaches stage 6 (the graph walk
returned normally); every rejection path and the graph-walk exception path
leave the log untouched, and no path ever modifies or removes existing
entries. -/
theorem execute_log_spec (oracle : EvalOracle) (I : Interpreter)
    (frame : GlyphFrame) (now : Nat) :
    ∀ res I', Interpreter.execute oracle I frame now = .ok (res, I') →
      ((logsExecution oracle I frame now = true →
        I'.execution_log = I.execution_log ++
          [mkLogEntry now frame res (authorityNameFor I frame now)]) ∧
       (logsExecution oracle I frame now = false →
        I'.execution_log = I.execution_log) ∧
       (res.status = "rejected" → logsExecution oracle I frame now = false)) := by
  intro res I' h
  unfold Interpreter.execute at h
  unfold logsExecution authorityNameFor
  cases hb : I.registry.get_binding frame.glyph_code with
  | none =>
    simp only [hb] at h
    cases h
    refine ⟨?_, ?_, ?_⟩ <;> simp
  | some binding =>
    simp only [hb] at h ⊢
    by_cases hv : (I.trust.verify frame.domain frame.authority binding.signature
        now).valid = true
    · have hcond : ¬((!(I.trust.verify frame.domain frame.authority
          binding.signature now).valid) = true) := by simp [hv]
      simp only [if_neg hcond] at h ⊢
      cases hl : I.registry.lookup frame.glyph_code now with
      | none =>
        simp only [hl] at h
        cases h
        refine ⟨?_, ?_, ?_⟩ <;> simp
      | some graph =>
        simp only [hl] at h ⊢
        cases hbc : Interpreter._build_context frame graph now with
        | error e =>
          simp only [hbc] at h ⊢
          cases e with
          | valueError msg =>
            cases h
            refine ⟨?_, ?_, ?_⟩ <;> simp
          | keyError k => cases h
          | error msg => cases h
        | ok context =>
          simp only [hbc] at h ⊢
          cases hx : Interpreter._execute_graph I.actions oracle I.max_iterations
              graph context with
          | error e =>
            simp only [hx] at h ⊢
            cases h
            refine ⟨?_, ?_, ?_⟩ <;> simp
          | ok result =>
            simp only [hx] at h ⊢
            cases h
            refine ⟨(by simp), (by simp), ?_⟩
            intro hst
            by_cases hc : result.status = "completed"
            · rw [if_pos hc] at hst
              simp at hst
            · rw [if_neg hc] at hst
              simp at hst
    · simp only [Bool.not_eq_true] at hv
      have hcond : (!(I.trust.verify frame.domain frame.authority
          binding.signature now).valid) = true := by simp [hv]
      simp only [if_pos hcond] at h ⊢
      cases h
      refine ⟨?_, ?_, ?_⟩ <;> simp

/-- An interpreter with no bindings at all. -/
def interpNoBinding : Interpreter :=
  { registry := { registry_id := "empty", domain := 1, authority := 2 }
    trust := verifierW, actions := [] }

/-- Counterexample to C7 as stated: a rejected execution returns the
interpreter unchanged — the log did not grow by one. -/
theorem execute_log_counterexample :
    Interpreter.execute oracleFail interpNoBinding
        { domain := 1, authority := 2, glyph_code := 0x8001 } 5 =
      .ok ({ status := "rejected",
             error := some "No binding for glyph 0x8001" }, interpNoBinding) ∧
    interpNoBinding.execution_log = [] :=
  ⟨rfl, rfl⟩

/-- Witness for C7 at a concrete logging execution: the same state with a
well-formed graph appends exactly one entry, and a rejected call appends
none. -/
theorem execute_log_spec_witness :
    (∃ res I', Interpreter.execute oracleFail
        { registry := registryW, trust := verifierW, actions := [] }
        { domain := 1, authority := 2, glyph_code := 0x8001 } 10 =
          .ok (res, I') ∧
      I'.execution_log =
        [mkLogEntry 10 { domain := 1, authority := 2, glyph_code := 0x8001 }
          res (authorityNameFor
            { registry := registryW, trust := verifierW, actions := [] }
            { domain := 1, authority := 2, glyph_code := 0x8001 } 10)]) ∧
    (∃ res I', Interpreter.execute oracleFail interpNoBinding
        { domain := 1, authority := 2, glyph_code := 0x8001 } 5 =
          .ok (res, I') ∧
      I'.execution_log = []) := by
  constructor
  · obtain ⟨res, I', hrun⟩ :
        ∃ res I', Interpreter.execute oracleFail
          { registry := registryW, trust := verifierW, actions := [] }
          { domain := 1, authority := 2, glyph_code := 0x8001 } 10 =
            .ok (res, I') := ⟨_, _, rfl⟩
    have hlog := (execute_log_spec oracleFail
      { registry := registryW, trust := verifierW, actions := [] }
      { domain := 1, authority := 2, glyph_code := 0x8001 } 10 res I' hrun).1
      (by decide)
    exact ⟨res, I', hrun, by rw [hlog]; rfl⟩
  · obtain ⟨res, I', hrun⟩ :
        ∃ res I', Interpreter.execute oracleFail interpNoBinding
          { domain := 1, authority := 2, glyph_code := 0x8001 } 5 =
            .ok (res, I') := ⟨_, _, rfl⟩
    have hlog := (execute_log_spec oracleFail interpNoBinding
      { domain := 1, authority := 2, glyph_code := 0x8001 } 5 res I' hrun).2.1
      (by decide)
    exact ⟨res, I', hrun, by rw [hlog]; rfl⟩

end UASC

namespace UASC

/-! ## Claim C10: condition evaluation is total and defaults to False -/

/-- A condition node whose `'expression'` value is the integer `5` rather
than a string.  Registration never inspects expression values, so this
node is reachable through `register_graph`. -/
def condNodeInt : Node :=
  { type? := some "condition", expression? := some (.int 5)
    on_false? := some "fallback" }

/-- A structurally valid graph whose start node is `condNodeInt`. -/
def graphCondInt : ExecutionGraph :=
  { graph_id := "gCondInt"
    nodes := [("start", condNodeInt), ("fallback", { type? := some "exit" })] }

/-- A registry binding code `0x8002` to `graphCondInt` with a valid window
and a non-empty signature. -/
def registryCondInt : Registry :=
  { registry_id := "regCondInt", domain := 1, authority := 2
    graphs := [("gCondInt", graphCondInt)]
    bindings := [(0x8002,
      { glyph_code := 0x8002, graph_id := "gCondInt", authority := 2
        valid_from := 0, valid_until := 1000, signature := "s" })] }

/-- The interpreter over that registry and the witness trust chain. -/
def interpCondInt : Interpreter :=
  { registry := registryCondInt, trust := verifierW, actions := [] }

/-- Counterexample to C10 as stated: on the condition node carrying the
non-string expression `5` and a context with one parameter,
`_evaluate_condition` raises `AttributeError` at `expression.replace`
(which sits outside its `try`) instead of returning a boolean, and the
end-to-end execution of the registered, bound, trusted graph produces a
`failed` result through the stage-5 exception handler — not the `on_false`
branch. -/
theorem evaluate_condition_counterexample :
    graphCondInt.validate = [] ∧
    Interpreter._evaluate_condition oracleFail condNodeInt
        { parameters := [("x", .int 1)], system := [], node_results := [] } =
      .error (.error "'int' object has no attribute 'replace'") ∧
    Interpreter.execute oracleFail interpCondInt
        { domain := 1, authority := 2, glyph_code := 0x8002,
          context := some [("x", .int 1)] } 10 =
      .ok ({ status := "failed",
             error := some "'int' object has no attribute 'replace'" },
           interpCondInt) :=
  ⟨rfl, rfl, rfl⟩

/-- C10 (amended).  Restricted to condition nodes whose `'expression'`
entry is absent or holds a string — the only shape the claim's "malformed
expression" reading covers without touching the replace loop —
`_evaluate_condition` is total: it returns a boolean, the literal
`true`/`false` expressions short-cut, any raise of the guarded evaluation
of the substituted expression yields `False`, and in the graph walk a
false condition sends the walk to `on_false` (default `"end"`), never to a
failed result.  (On a non-string expression with non-empty parameters it
raises instead, as the counterexample shows.) -/
theorem evaluate_condition_spec (oracle : EvalOracle) (node : Node)
    (ctx : ExecutionContext)
    (hstr : node.expression? = Option.none ∨
      ∃ s, node.expression? = some (.str s)) :
    (∃ b, Interpreter._evaluate_condition oracle node ctx = .ok b) ∧
    (node.expression? = Option.none ∨ node.expression? = some (.str "true") →
      Interpreter._evaluate_condition oracle node ctx = .ok true) ∧
    (node.expression? = some (.str "false") →
      Interpreter._evaluate_condition oracle node ctx = .ok false) ∧
    (∀ s exc, node.expression? = some (.str s) → s ≠ "true" → s ≠ "false" →
      oracle (substExpression s ctx.parameters) (buildAllowed ctx) =
        .error exc →
      Interpreter._evaluate_condition oracle node ctx = .ok false) ∧
    (∀ (g : ExecutionGraph) (cur : String) (fuel : Nat) (trace : List String)
        (acts : ActionHandlers),
      alookup g.nodes cur = some node →
      node.type?.getD "action" = "condition" →
      Interpreter._evaluate_condition oracle node ctx = .ok false →
      execGraphLoop acts oracle g (fuel + 1) cur ctx trace =
        execGraphLoop acts oracle g fuel (node.on_false?.getD "end") ctx
          (trace ++ [cur])) := by
  refine ⟨?_, ?_, ?_, ?_, ?_⟩
  · rcases hstr with he | ⟨s, he⟩
    · exact ⟨true, by simp [Interpreter._evaluate_condition, he]⟩
    · by_cases h1 : s = "true"
      · subst h1
        exact ⟨true, by simp [Interpreter._evaluate_condition, he]⟩
      · by_cases h2 : s = "false"
        · subst h2
          exact ⟨false, by simp [Interpreter._evaluate_condition, he]⟩
        · cases ho : oracle (substExpression s ctx.parameters)
              (buildAllowed ctx) with
          | ok v =>
            exact ⟨pyTruthy v,
              by simp [Interpreter._evaluate_condition, he, h1, h2, ho]⟩
          | error exc =>
            exact ⟨false,
              by simp [Interpreter._evaluate_condition, he, h1, h2, ho]⟩
  · rintro (he | he) <;> simp [Interpreter._evaluate_condition, he]
  · intro he
    simp [Interpreter._evaluate_condition, he]
  · intro s exc he h1 h2 ho
    simp [Interpreter._evaluate_condition, he, h1, h2, ho]
  · intro g cur fuel trace acts halook hty hcond
    simp only [execGraphLoop, halook]
    simp [hty, hcond]

/-- A condition node whose string expression is not a literal. -/
def condNode : Node :=
  { type? := some "condition", expression? := some (.str "inputs.x > 3")
    on_false? := some "fallback" }

/-- A graph whose start node is `condNode`. -/
def graphCond : ExecutionGraph :=
  { graph_id := "gCond"
    nodes := [("start", condNode), ("fallback", { type? := some "exit" })] }

/-- Witness for C10 (amended): on the string expression the evaluation is
total, an always-raising oracle makes the condition `False`, and the walk
steps from the condition node to `on_false`. -/
theorem evaluate_condition_spec_witness :
    (∃ b, Interpreter._evaluate_condition oracleFail condNode
      { parameters := [], system := [], node_results := [] } = .ok b) ∧
    Interpreter._evaluate_condition oracleFail condNode
      { parameters := [], system := [], node_results := [] } = .ok false ∧
    execGraphLoop [] oracleFail graphCond 1 "start"
        { parameters := [], system := [], node_results := [] } [] =
      execGraphLoop [] oracleFail graphCond 0 "fallback"
        { parameters := [], system := [], node_results := [] } ["start"] := by
  have h := evaluate_condition_spec oracleFail condNode
    { parameters := [], system := [], node_results := [] }
    (Or.inr ⟨"inputs.x > 3", rfl⟩)
  have hfalse := h.2.2.2.1 "inputs.x > 3" (.error "eval failed") rfl
    (by decide) (by decide) rfl
  refine ⟨h.1, hfalse, ?_⟩
  exact h.2.2.2.2 graphCond "start" 0 [] [] (by decide) (by decide) hfalse

end UASC

namespace UASC

/-! ## Claim C9: text URI round-trip — infrastructure -/

/-- Every hex digit character the formatter can emit. -/
theorem hexChar_mem (n : Nat) :
    hexChar n ∈ ['0', '1', '2', '3', '4', '5', '6', '7', '8', '9',
      'A', 'B', 'C', 'D', 'E', 'F'] := by
  unfold hexChar
  rcases Nat.lt_or_ge n 16 with h | h
  · interval_cases n <;> decide
  · rw [List.getD_eq_default]
    · decide
    · simpa using h

/-- Every decimal digit character the formatter can emit. -/
theorem decChar_mem (n : Nat) :
    decChar n ∈ ['0', '1', '2', '3', '4', '5', '6', '7', '8', '9'] := by
  unfold decChar
  rcases Nat.lt_or_ge n 10 with h | h
  · interval_cases n <;> decide
  · rw [List.getD_eq_default]
    · decide
    · simpa using h

/-- Every character of a rendered decimal number is a digit. -/
theorem decCharsCore_mem :
    ∀ (fuel n : Nat), ∀ c ∈ decCharsCore fuel n,
      c ∈ ['0', '1', '2', '3', '4', '5', '6', '7', '8', '9'] := by
  intro fuel
  induction fuel with
  | zero => intro n c hc; cases hc
  | succ f ih =>
    intro n c hc
    unfold decCharsCore at hc
    split at hc
    · simp at hc
      rw [hc]
      exact decChar_mem n
    · rcases List.mem_append.mp hc with h | h
      · exact ih _ c h
      · simp at h
        rw [h]
        exact decChar_mem (n % 10)

/-- `hexVal?` inverts `hexChar` on digit values. -/
theorem hexVal?_hexChar (k : Nat) (hk : k < 16) : hexVal? (hexChar k) = some k := by
  interval_cases k <;> decide

/-- `decVal?` inverts `decChar` on digit values. -/
theorem decVal?_decChar (k : Nat) (hk : k < 10) : decVal? (decChar k) = some k := by
  interval_cases k <;> decide

/-- `splitOnceChar` misses an absent separator. -/
theorem splitOnceChar_not_mem (sep : Char) :
    ∀ cs : List Char, sep ∉ cs → splitOnceChar sep cs = Option.none := by
  intro cs
  induction cs with
  | nil => intro _; rfl
  | cons c rest ih =>
    intro h
    rw [List.mem_cons, not_or] at h
    simp only [splitOnceChar, ih h.2]
    rw [if_neg (fun hc => h.1 hc.symm)]
    rfl

/-- `splitOnceChar` splits at the first occurrence of the separator. -/
theorem splitOnceChar_append (sep : Char) :
    ∀ xs ys : List Char, sep ∉ xs →
      splitOnceChar sep (xs ++ sep :: ys) = some (xs, ys) := by
  intro xs
  induction xs with
  | nil =>
    intro ys _
    rw [List.nil_append]
    simp [splitOnceChar]
  | cons c rest ih =>
    intro ys h
    rw [List.mem_cons, not_or] at h
    rw [List.cons_append]
    simp only [splitOnceChar, ih ys h.2]
    rw [if_neg (fun hc => h.1 hc.symm)]
    rfl

/-- `splitChars` leaves a separator-free string whole. -/
theorem splitChars_not_mem (sep : Char) :
    ∀ cs : List Char, sep ∉ cs → splitChars sep cs = [cs] := by
  intro cs
  induction cs with
  | nil => intro _; rfl
  | cons c rest ih =>
    intro h
    rw [List.mem_cons, not_or] at h
    simp only [splitChars, ih h.2]
    rw [if_neg (fun hc => h.1 hc.symm)]

/-- `splitChars` peels the piece before the first separator. -/
theorem splitChars_append (sep : Char) :
    ∀ xs ys : List Char, sep ∉ xs →
      splitChars sep (xs ++ sep :: ys) = xs :: splitChars sep ys := by
  intro xs
  induction xs with
  | nil =>
    intro ys _
    rw [List.nil_append]
    simp [splitChars]
  | cons c rest ih =>
    intro ys h
    rw [List.mem_cons, not_or] at h
    rw [List.cons_append]
    simp only [splitChars, ih ys h.2]
    rw [if_neg (fun hc => h.1 hc.symm)]

/-- A list is a `isPrefixOf` of itself followed by anything. -/
theorem isPrefixOf_append (xs rest : List Char) :
    xs.isPrefixOf (xs ++ rest) = true := by
  induction xs with
  | nil => simp [List.isPrefixOf]
  | cons c cs ih => simp [List.isPrefixOf, ih]

end UASC

namespace UASC

/-- Folding the digit parser over rendered digits recovers the number. -/
theorem parse_decCharsCore :
    ∀ (fuel n acc : Nat), n < 10 ^ fuel →
      (decCharsCore fuel n).foldl
        (fun acc c => do pure ((← acc) * 10 + (← decVal? c))) (some acc) =
      some (acc * 10 ^ (decCharsCore fuel n).length + n) := by
  intro fuel
  induction fuel with
  | zero =>
    intro n acc h
    have hn : n = 0 := by simpa using h
    subst hn
    simp [decCharsCore]
  | succ f ih =>
    intro n acc h
    by_cases hn : n < 10
    · simp only [decCharsCore, if_pos hn]
      simp [List.foldl, decVal?_decChar n hn, bind, Option.bind]
    · simp only [decCharsCore, if_neg hn]
      have hdiv : n / 10 < 10 ^ f := by
        rw [pow_succ] at h
        omega
      rw [List.foldl_append, ih (n / 10) acc hdiv]
      have hmod : n % 10 < 10 := Nat.mod_lt _ (by norm_num)
      simp [List.foldl, decVal?_decChar (n % 10) hmod, bind, Option.bind]
      have hdm := Nat.div_add_mod n 10
      calc (acc * 10 ^ (decCharsCore f (n / 10)).length + n / 10) * 10 + n % 10
          = acc * (10 ^ (decCharsCore f (n / 10)).length * 10) +
              (10 * (n / 10) + n % 10) := by ring
        _ = acc * 10 ^ ((decCharsCore f (n / 10)).length + 1) + n := by
            rw [hdm, pow_succ]

/-- Rendered digit lists are never empty (with fuel available). -/
theorem decCharsCore_ne_nil (fuel n : Nat) (hf : 0 < fuel) :
    decCharsCore fuel n ≠ [] := by
  cases fuel with
  | zero => omega
  | succ f =>
    simp only [decCharsCore]
    split
    · simp
    · simp

/-- Every number is below `10 ^ (n + 1)`. -/
theorem lt_ten_pow_succ (n : Nat) : n < 10 ^ (n + 1) :=
  lt_of_lt_of_le (Nat.lt_pow_self (by norm_num) n)
    (Nat.pow_le_pow_right (by norm_num) (by omega))

/-- `parseDecChars` inverts the decimal renderer. -/
theorem parseDecChars_decChars (n : Nat) : parseDecChars (decChars n) = some n := by
  have hne := decCharsCore_ne_nil (n + 1) n (by omega)
  obtain ⟨c, rest, hcons⟩ : ∃ c rest, decChars n = c :: rest := by
    cases hd : decChars n with
    | nil => exact absurd hd hne
    | cons c rest => exact ⟨c, rest, rfl⟩
  rw [hcons]
  simp only [parseDecChars]
  rw [← hcons]
  unfold decChars
  rw [parse_decCharsCore (n + 1) n 0 (lt_ten_pow_succ n)]
  simp

/-- `str` of a coerced natural is its decimal rendering. -/
theorem intRepr_coe (n : Nat) : intRepr (n : Int) = decRepr n := by
  unfold intRepr
  rw [if_neg (by omega)]
  simp

/-- `int(str(n))` round-trips for naturals. -/
theorem pyParseInt?_decRepr (n : Nat) : pyParseInt? (decRepr n) = some (n : Int) := by
  have hne := decCharsCore_ne_nil (n + 1) n (by omega)
  obtain ⟨c, rest, hcons⟩ : ∃ c rest, decChars n = c :: rest := by
    cases hd : decChars n with
    | nil => exact absurd hd hne
    | cons c rest => exact ⟨c, rest, rfl⟩
  have hcmem : c ∈ ['0', '1', '2', '3', '4', '5', '6', '7', '8', '9'] := by
    have := decCharsCore_mem (n + 1) n c
    rw [show decCharsCore (n + 1) n = decChars n from rfl, hcons] at this
    exact this (by simp)
  have hdata : (decRepr n).data = c :: rest := by
    rw [show (decRepr n).data = decChars n from rfl, hcons]
  unfold pyParseInt?
  rw [hdata]
  split
  next heq =>
    exfalso
    rw [List.cons.injEq] at heq
    rcases heq with ⟨hc, -⟩
    rw [hc] at hcmem
    simp at hcmem
  next heq =>
    exfalso
    rw [List.cons.injEq] at heq
    rcases heq with ⟨hc, -⟩
    rw [hc] at hcmem
    simp at hcmem
  next =>
    rw [← hcons, parseDecChars_decChars n]
    rfl

/-- `int(_, 16)` inverts the three-digit hex renderer. -/
theorem pyParseHex?_hex3 (a : Nat) (ha : a < 4096) :
    pyParseHex? (hex3 a) = some a := by
  have h2 : a / 256 % 16 < 16 := Nat.mod_lt _ (by norm_num)
  have h1 : a / 16 % 16 < 16 := Nat.mod_lt _ (by norm_num)
  have h0 : a % 16 < 16 := Nat.mod_lt _ (by norm_num)
  show ([hexChar (a / 256 % 16), hexChar (a / 16 % 16),
      hexChar (a % 16)].foldl
        (fun acc c => do pure ((← acc) * 16 + (← hexVal? c))) (some 0)) = some a
  simp [List.foldl, hexVal?_hexChar _ h2, hexVal?_hexChar _ h1,
    hexVal?_hexChar _ h0, bind, Option.bind]
  omega

end UASC

namespace UASC

/-- Character freeness across the `domain.authority` part. -/
theorem not_mem_domainAuth (c : Char) (dnd a3 : List Char)
    (h1 : c ∉ dnd) (h2 : c ≠ '.') (h3 : c ∉ "auth_".data) (h4 : c ∉ a3) :
    c ∉ dnd ++ '.' :: ("auth_".data ++ a3) := by
  intro hmem
  rcases List.mem_append.mp hmem with h | h
  · exact h1 h
  · rcases List.mem_cons.mp h with h | h
    · exact h2 h
    · rcases List.mem_append.mp h with h | h
      · exact h3 h
      · exact h4 h

/-- Character freeness across the whole rendered path. -/
theorem not_mem_uriPath (c : Char) (dnd a3 tokd : List Char)
    (h1 : c ∉ dnd) (h2 : c ≠ '.') (h3 : c ∉ "auth_".data) (h4 : c ∉ a3)
    (h5 : c ≠ '/') (h6 : c ∉ tokd) :
    c ∉ dnd ++ '.' :: ("auth_".data ++ a3) ++ '/' :: tokd := by
  intro hmem
  rcases List.mem_append.mp hmem with h | h
  · exact not_mem_domainAuth c dnd a3 h1 h2 h3 h4 h
  · rcases List.mem_cons.mp h with h | h
    · exact h5 h
    · exact h6 h

/-- Character freeness across one `key=value` query parameter. -/
theorem not_mem_param (c : Char) (k v : List Char)
    (h1 : c ∉ k) (h2 : c ≠ '=') (h3 : c ∉ v) : c ∉ k ++ '=' :: v := by
  intro hmem
  rcases List.mem_append.mp hmem with h | h
  · exact h1 h
  · rcases List.mem_cons.mp h with h | h
    · exact h2 h
    · exact h3 h

/-- Evaluation of `from_text` on a well-formed context-free URI, with the
domain name, authority hex digits and token kept symbolic. -/
theorem from_text_flat_no_ctx (uri : String) (dnd a3 tokd : List Char) (a : Nat)
    (huri : uri.data = "UASC://".data ++
      (dnd ++ '.' :: ("auth_".data ++ a3) ++ '/' :: tokd))
    (hdnDot : '.' ∉ dnd) (hdnSlash : '/' ∉ dnd) (hdnQ : '?' ∉ dnd)
    (ha3Dot : '.' ∉ a3) (ha3Slash : '/' ∉ a3) (ha3Q : '?' ∉ a3)
    (htokQ : '?' ∉ tokd) (htokSlash : '/' ∉ tokd)
    (hparse : pyParseHex? (String.mk a3) = some a) :
    GlyphCodec.from_text uri =
      .ok { domain := (alookup domainNameToValue (String.mk dnd)).getD 0,
            authority := a,
            glyph_code :=
              (alookup (GLYPH_TOKENS.map (fun p => (p.2, p.1)))
                (String.mk tokd)).getD 0xFFFF,
            context := Option.none } := by
  have hpre : ("UASC://".data.isPrefixOf uri.data) = true := by
    rw [huri]
    exact isPrefixOf_append _ _
  have hdrop : uri.data.drop 7 =
      dnd ++ '.' :: ("auth_".data ++ a3) ++ '/' :: tokd := by
    rw [huri]
    have h := List.drop_left ("UASC://".data)
      (dnd ++ '.' :: ("auth_".data ++ a3) ++ '/' :: tokd)
    rw [show ("UASC://".data).length = 7 from rfl] at h
    exact h
  have hqbig : splitOnceChar '?'
      (dnd ++ '.' :: ("auth_".data ++ a3) ++ '/' :: tokd) = Option.none :=
    splitOnceChar_not_mem _ _
      (not_mem_uriPath '?' dnd a3 tokd hdnQ (by decide) (by decide) ha3Q
        (by decide) htokQ)
  have hsplit1 : splitChars '/'
      (dnd ++ '.' :: ("auth_".data ++ a3) ++ '/' :: tokd) =
      [dnd ++ '.' :: ("auth_".data ++ a3), tokd] := by
    rw [splitChars_append _ _ _
        (not_mem_domainAuth '/' dnd a3 hdnSlash (by decide) (by decide) ha3Slash),
      splitChars_not_mem _ _ htokSlash]
  have hsplit2 : splitChars '.' (dnd ++ '.' :: ("auth_".data ++ a3)) =
      [dnd, "auth_".data ++ a3] := by
    rw [splitChars_append _ _ _ hdnDot, splitChars_not_mem]
    intro hmem
    rcases List.mem_append.mp hmem with h | h
    · revert h
      decide
    · exact ha3Dot h
  have hauthpre : ("auth_".data.isPrefixOf ("auth_".data ++ a3)) = true :=
    isPrefixOf_append _ _
  have hauthdrop : ("auth_".data ++ a3).drop 5 = a3 := by
    have h := List.drop_left ("auth_".data) a3
    rw [show ("auth_".data).length = 5 from rfl] at h
    exact h
  simp only [GlyphCodec.from_text, hpre, Bool.not_true, hdrop, hqbig, hsplit1,
    hsplit2, unpack2, hauthpre, hauthdrop, hparse, Bool.false_eq_true, if_false,
    bind, Except.bind, pure, Except.pure]
  simp

/-- Evaluation of `from_text` on a well-formed URI carrying a three-field
query, keys and values symbolic. -/
theorem from_text_flat_ctx (uri : String)
    (dnd a3 tokd k1 v1 k2 v2 k3 v3 : List Char) (a : Nat)
    (huri : uri.data = "UASC://".data ++
      (dnd ++ '.' :: ("auth_".data ++ a3) ++ '/' :: tokd ++
        '?' :: (k1 ++ '=' :: v1 ++ '&' ::
          (k2 ++ '=' :: v2 ++ '&' :: (k3 ++ '=' :: v3)))))
    (hdnDot : '.' ∉ dnd) (hdnSlash : '/' ∉ dnd) (hdnQ : '?' ∉ dnd)
    (ha3Dot : '.' ∉ a3) (ha3Slash : '/' ∉ a3) (ha3Q : '?' ∉ a3)
    (htokQ : '?' ∉ tokd) (htokSlash : '/' ∉ tokd)
    (hk1Amp : '&' ∉ k1) (hk1Eq : '=' ∉ k1) (hv1Amp : '&' ∉ v1) (hv1Eq : '=' ∉ v1)
    (hk2Amp : '&' ∉ k2) (hk2Eq : '=' ∉ k2) (hv2Amp : '&' ∉ v2) (hv2Eq : '=' ∉ v2)
    (hk3Amp : '&' ∉ k3) (hk3Eq : '=' ∉ k3) (hv3Amp : '&' ∉ v3)
    (hv3Eq : '=' ∉ v3)
    (hparse : pyParseHex? (String.mk a3) = some a) :
    GlyphCodec.from_text uri =
      .ok { domain := (alookup domainNameToValue (String.mk dnd)).getD 0,
            authority := a,
            glyph_code :=
              (alookup (GLYPH_TOKENS.map (fun p => (p.2, p.1)))
                (String.mk tokd)).getD 0xFFFF,
            context := some
              [(String.mk k1, parseParamVal (String.mk v1)),
               (String.mk k2, parseParamVal (String.mk v2)),
               (String.mk k3, parseParamVal (String.mk v3))] } := by
  have hpre : ("UASC://".data.isPrefixOf uri.data) = true := by
    rw [huri]
    exact isPrefixOf_append _ _
  have hdrop : uri.data.drop 7 =
      dnd ++ '.' :: ("auth_".data ++ a3) ++ '/' :: tokd ++
        '?' :: (k1 ++ '=' :: v1 ++ '&' ::
          (k2 ++ '=' :: v2 ++ '&' :: (k3 ++ '=' :: v3))) := by
    rw [huri]
    have h := List.drop_left ("UASC://".data)
      (dnd ++ '.' :: ("auth_".data ++ a3) ++ '/' :: tokd ++
        '?' :: (k1 ++ '=' :: v1 ++ '&' ::
          (k2 ++ '=' :: v2 ++ '&' :: (k3 ++ '=' :: v3))))
    rw [show ("UASC://".data).length = 7 from rfl] at h
    exact h
  have hqsplit : splitOnceChar '?'
      (dnd ++ '.' :: ("auth_".data ++ a3) ++ '/' :: tokd ++
        '?' :: (k1 ++ '=' :: v1 ++ '&' ::
          (k2 ++ '=' :: v2 ++ '&' :: (k3 ++ '=' :: v3)))) =
      some (dnd ++ '.' :: ("auth_".data ++ a3) ++ '/' :: tokd,
        k1 ++ '=' :: v1 ++ '&' ::
          (k2 ++ '=' :: v2 ++ '&' :: (k3 ++ '=' :: v3))) :=
    splitOnceChar_append _ _ _
      (not_mem_uriPath '?' dnd a3 tokd hdnQ (by decide) (by decide) ha3Q
        (by decide) htokQ)
  have hsplit1 : splitChars '/'
      (dnd ++ '.' :: ("auth_".data ++ a3) ++ '/' :: tokd) =
      [dnd ++ '.' :: ("auth_".data ++ a3), tokd] := by
    rw [splitChars_append _ _ _
        (not_mem_domainAuth '/' dnd a3 hdnSlash (by decide) (by decide) ha3Slash),
      splitChars_not_mem _ _ htokSlash]
  have hsplit2 : splitChars '.' (dnd ++ '.' :: ("auth_".data ++ a3)) =
      [dnd, "auth_".data ++ a3] := by
    rw [splitChars_append _ _ _ hdnDot, splitChars_not_mem]
    intro hmem
    rcases List.mem_append.mp hmem with h | h
    · revert h
      decide
    · exact ha3Dot h
  have hauthpre : ("auth_".data.isPrefixOf ("auth_".data ++ a3)) = true :=
    isPrefixOf_append _ _
  have hauthdrop : ("auth_".data ++ a3).drop 5 = a3 := by
    have h := List.drop_left ("auth_".data) a3
    rw [show ("auth_".data).length = 5 from rfl] at h
    exact h
  have hamp : splitChars '&'
      (k1 ++ '=' :: v1 ++ '&' :: (k2 ++ '=' :: v2 ++ '&' :: (k3 ++ '=' :: v3))) =
      [k1 ++ '=' :: v1, k2 ++ '=' :: v2, k3 ++ '=' :: v3] := by
    rw [splitChars_append _ _ _
        (not_mem_param '&' k1 v1 hk1Amp (by decide) hv1Amp),
      splitChars_append _ _ _
        (not_mem_param '&' k2 v2 hk2Amp (by decide) hv2Amp),
      splitChars_not_mem _ _
        (not_mem_param '&' k3 v3 hk3Amp (by decide) hv3Amp)]
  have hp1 : splitChars '=' (k1 ++ '=' :: v1) = [k1, v1] := by
    rw [splitChars_append _ _ _ hk1Eq, splitChars_not_mem _ _ hv1Eq]
  have hp2 : splitChars '=' (k2 ++ '=' :: v2) = [k2, v2] := by
    rw [splitChars_append _ _ _ hk2Eq, splitChars_not_mem _ _ hv2Eq]
  have hp3 : splitChars '=' (k3 ++ '=' :: v3) = [k3, v3] := by
    rw [splitChars_append _ _ _ hk3Eq, splitChars_not_mem _ _ hv3Eq]
  simp only [GlyphCodec.from_text, hpre, Bool.not_true, hdrop, hqsplit, hsplit1,
    hsplit2, unpack2, hauthpre, hauthdrop, hparse, hamp, hp1, hp2, hp3,
    List.mapM, List.mapM.loop, Bool.false_eq_true, if_false,
    bind, Except.bind, pure, Except.pure]
  simp

end UASC

namespace UASC

/-- Inverting a successful domain-name lookup: the lowercase name maps back
to the domain value, and contains none of the URI delimiter characters. -/
theorem domain_lookup_inv (d : Nat) (dn : String)
    (h : alookup domainValueToName d = some dn) :
    alookup domainNameToValue dn = some d ∧
    '.' ∉ dn.data ∧ '/' ∉ dn.data ∧ '?' ∉ dn.data := by
  simp only [domainValueToName, domainMembersLower, List.map_cons, List.map_nil,
    alookup] at h
  by_cases c0 : 0 = d
  · rw [if_pos c0] at h
    cases h
    subst c0
    decide
  · rw [if_neg c0] at h
    by_cases c1 : 1 = d
    · rw [if_pos c1] at h
      cases h
      subst c1
      decide
    · rw [if_neg c1] at h
      by_cases c2 : 2 = d
      · rw [if_pos c2] at h
        cases h
        subst c2
        decide
      · rw [if_neg c2] at h
        by_cases c3 : 3 = d
        · rw [if_pos c3] at h
          cases h
          subst c3
          decide
        · rw [if_neg c3] at h
          by_cases c4 : 4 = d
          · rw [if_pos c4] at h
            cases h
            subst c4
            decide
          · rw [if_neg c4] at h
            by_cases c5 : 5 = d
            · rw [if_pos c5] at h
              cases h
              subst c5
              decide
            · rw [if_neg c5] at h
              by_cases c6 : 6 = d
              · rw [if_pos c6] at h
                cases h
                subst c6
                decide
              · rw [if_neg c6] at h
                by_cases c7 : 7 = d
                · rw [if_pos c7] at h
                  cases h
                  subst c7
                  decide
                · rw [if_neg c7] at h
                  by_cases c8 : 8 = d
                  · rw [if_pos c8] at h
                    cases h
                    subst c8
                    decide
                  · rw [if_neg c8] at h
                    by_cases c9 : 9 = d
                    · rw [if_pos c9] at h
                      cases h
                      subst c9
                      decide
                    · rw [if_neg c9] at h
                      by_cases c10 : 10 = d
                      · rw [if_pos c10] at h
                        cases h
                        subst c10
                        decide
                      · rw [if_neg c10] at h
                        by_cases c11 : 11 = d
                        · rw [if_pos c11] at h
                          cases h
                          subst c11
                          decide
                        · rw [if_neg c11] at h
                          by_cases c12 : 15 = d
                          · rw [if_pos c12] at h
                            cases h
                            subst c12
                            decide
                          · rw [if_neg c12] at h
                            cases h

/-- Inverting a successful token lookup: the token maps back to the opcode,
and contains none of the URI delimiter characters. -/
theorem token_lookup_inv (g : Nat) (tok : String)
    (h : alookup GLYPH_TOKENS g = some tok) :
    alookup (GLYPH_TOKENS.map (fun p => (p.2, p.1))) tok = some g ∧
    '?' ∉ tok.data ∧ '/' ∉ tok.data := by
  simp only [GLYPH_TOKENS, alookup] at h
  by_cases c0 : 32769 = g
  · rw [if_pos c0] at h
    cases h
    subst c0
    decide
  · rw [if_neg c0] at h
    by_cases c1 : 32770 = g
    · rw [if_pos c1] at h
      cases h
      subst c1
      decide
    · rw [if_neg c1] at h
      by_cases c2 : 32771 = g
      · rw [if_pos c2] at h
        cases h
        subst c2
        decide
      · rw [if_neg c2] at h
        by_cases c3 : 32772 = g
        · rw [if_pos c3] at h
          cases h
          subst c3
          decide
        · rw [if_neg c3] at h
          by_cases c4 : 32773 = g
          · rw [if_pos c4] at h
            cases h
            subst c4
            decide
          · rw [if_neg c4] at h
            by_cases c5 : 32774 = g
            · rw [if_pos c5] at h
              cases h
              subst c5
              decide
            · rw [if_neg c5] at h
              by_cases c6 : 32775 = g
              · rw [if_pos c6] at h
                cases h
                subst c6
                decide
              · rw [if_neg c6] at h
                cases h

end UASC

namespace UASC

/-- The three hex digits of `hex3`. -/
theorem hex3_data (a : Nat) : (hex3 a).data =
    [hexChar (a / 256 % 16), hexChar (a / 16 % 16), hexChar (a % 16)] := rfl

/-- `hex3` output avoids every non-hex-digit character. -/
theorem hex3_not_mem (c : Char)
    (hc : c ∉ ['0', '1', '2', '3', '4', '5', '6', '7', '8', '9',
      'A', 'B', 'C', 'D', 'E', 'F']) (a : Nat) : c ∉ (hex3 a).data := by
  rw [hex3_data]
  intro h
  simp only [List.mem_cons, List.not_mem_nil, or_false] at h
  rcases h with h | h | h <;> (subst h; exact hc (hexChar_mem _))

/-- Decimal renderings avoid every non-digit character. -/
theorem decRepr_not_mem (c : Char)
    (hc : c ∉ ['0', '1', '2', '3', '4', '5', '6', '7', '8', '9']) (n : Nat) :
    c ∉ (decRepr n).data := by
  intro h
  exact hc (decCharsCore_mem (n + 1) n c h)

/-- The rendered context-free URI, flattened to characters. -/
theorem to_text_data_no_ctx (d a g : Nat) (dn tok : String)
    (hdn : alookup domainValueToName d = some dn)
    (htok : alookup GLYPH_TOKENS g = some tok) :
    (GlyphCodec.to_text { domain := d, authority := a, glyph_code := g }).data =
      "UASC://".data ++
        (dn.data ++ '.' :: ("auth_".data ++ (hex3 a).data) ++ '/' :: tok.data) := by
  unfold GlyphCodec.to_text GlyphFrame.to_token
  simp only [hdn, htok, Option.getD_some, ctxTruthy]
  simp [String.data_append, List.append_assoc,
    show ("." : String).data = ['.'] from rfl,
    show ("/" : String).data = ['/'] from rfl]

/-- The rendered URI with the fixed-field context, flattened to
characters. -/
theorem to_text_data_ctx (d a g : Nat) (dn tok : String) (z p : Nat) (m : String)
    (hdn : alookup domainValueToName d = some dn)
    (htok : alookup GLYPH_TOKENS g = some tok) :
    (GlyphCodec.to_text
        { domain := d, authority := a, glyph_code := g,
          context := some [("zone", .int z), ("priority", .int p),
            ("mode", .str m)] }).data =
      "UASC://".data ++
        (dn.data ++ '.' :: ("auth_".data ++ (hex3 a).data) ++ '/' :: tok.data ++
          '?' :: ("zone".data ++ '=' :: (decRepr z).data ++ '&' ::
            ("priority".data ++ '=' :: (decRepr p).data ++ '&' ::
              ("mode".data ++ '=' :: m.data)))) := by
  unfold GlyphCodec.to_text GlyphFrame.to_token
  simp only [hdn, htok, Option.getD_some, ctxTruthy, Option.getD, List.map,
    pyStrVal, pyJoin, intRepr_coe]
  simp [String.data_append, List.append_assoc,
    show ("." : String).data = ['.'] from rfl,
    show ("/" : String).data = ['/'] from rfl,
    show ("?" : String).data = ['?'] from rfl,
    show ("&" : String).data = ['&'] from rfl,
    show ("=" : String).data = ['='] from rfl]

end UASC

namespace UASC

/-- C9 (amended).  The text URI round-trip holds for frames whose
glyph_code is one of the seven well-known token-table opcodes and whose
domain is a named `Domain` member, with any 12-bit authority and a context
of the fixed fields (or none); a glyph_code outside the table renders as
`@{code:04X}` and parses back as `0xFFFF`, so the round-trip does not
extend to all of [0, 65535]. -/
theorem glyph_text_roundtrip (d a g : Nat) (dn tok : String)
    (hdn : alookup domainValueToName d = some dn)
    (htok : alookup GLYPH_TOKENS g = some tok)
    (ha : a < 4096) :
    (GlyphCodec.from_text (GlyphCodec.to_text
        { domain := d, authority := a, glyph_code := g }) =
      .ok { domain := d, authority := a, glyph_code := g }) ∧
    (∀ z p : Nat, ∀ m : String, z < 256 → p < 256 →
      m ∈ (["normal", "emergency", "maintenance", "test"] : List String) →
      GlyphCodec.from_text (GlyphCodec.to_text
        { domain := d, authority := a, glyph_code := g,
          context := some [("zone", .int z), ("priority", .int p),
            ("mode", .str m)] }) =
      .ok { domain := d, authority := a, glyph_code := g,
            context := some [("zone", .int z), ("priority", .int p),
              ("mode", .str m)] }) := by
  obtain ⟨hinv, hdnDot, hdnSlash, hdnQ⟩ := domain_lookup_inv d dn hdn
  obtain ⟨htinv, htokQ, htokSlash⟩ := token_lookup_inv g tok htok
  constructor
  · have hres := from_text_flat_no_ctx
      (GlyphCodec.to_text { domain := d, authority := a, glyph_code := g })
      dn.data (hex3 a).data tok.data a
      (to_text_data_no_ctx d a g dn tok hdn htok)
      hdnDot hdnSlash hdnQ
      (hex3_not_mem '.' (by decide) a) (hex3_not_mem '/' (by decide) a)
      (hex3_not_mem '?' (by decide) a)
      htokQ htokSlash
      (pyParseHex?_hex3 a ha)
    rw [hres]
    rw [show String.mk dn.data = dn from rfl,
      show String.mk tok.data = tok from rfl]
    simp [hinv, htinv]
  · intro z p m _hz _hp hm
    have hmfree : ('&' ∉ m.data ∧ '=' ∉ m.data) ∧ pyParseInt? m = Option.none := by
      simp only [List.mem_cons, List.not_mem_nil, or_false] at hm
      rcases hm with rfl | rfl | rfl | rfl <;>
        exact ⟨⟨by decide, by decide⟩, by decide⟩
    have hres := from_text_flat_ctx
      (GlyphCodec.to_text
        { domain := d, authority := a, glyph_code := g,
          context := some [("zone", .int z), ("priority", .int p),
            ("mode", .str m)] })
      dn.data (hex3 a).data tok.data
      "zone".data (decRepr z).data "priority".data (decRepr p).data
      "mode".data m.data a
      (to_text_data_ctx d a g dn tok z p m hdn htok)
      hdnDot hdnSlash hdnQ
      (hex3_not_mem '.' (by decide) a) (hex3_not_mem '/' (by decide) a)
      (hex3_not_mem '?' (by decide) a)
      htokQ htokSlash
      (by decide) (by decide)
      (decRepr_not_mem '&' (by decide) z) (decRepr_not_mem '=' (by decide) z)
      (by decide) (by decide)
      (decRepr_not_mem '&' (by decide) p) (decRepr_not_mem '=' (by decide) p)
      (by decide) (by decide) hmfree.1.1 hmfree.1.2
      (pyParseHex?_hex3 a ha)
    rw [hres]
    rw [show String.mk dn.data = dn from rfl,
      show String.mk tok.data = tok from rfl,
      show String.mk ("zone".data) = "zone" from rfl,
      show String.mk ("priority".data) = "priority" from rfl,
      show String.mk ("mode".data) = "mode" from rfl,
      show String.mk m.data = m from rfl,
      show String.mk ((decRepr z).data) = decRepr z from rfl,
      show String.mk ((decRepr p).data) = decRepr p from rfl]
    simp [parseParamVal, pyParseInt?_decRepr, hmfree.2, hinv, htinv]

end UASC

namespace UASC

/-- Witness for C9 at a concrete token-table frame, with and without
context. -/
theorem glyph_text_roundtrip_witness :
    (GlyphCodec.from_text (GlyphCodec.to_text
        { domain := 1, authority := 66, glyph_code := 0x8003 }) =
      .ok { domain := 1, authority := 66, glyph_code := 0x8003 }) ∧
    (GlyphCodec.from_text (GlyphCodec.to_text
        { domain := 1, authority := 66, glyph_code := 0x8003,
          context := some [("zone", .int 5), ("priority", .int 2),
            ("mode", .str "emergency")] }) =
      .ok { domain := 1, authority := 66, glyph_code := 0x8003,
            context := some [("zone", .int 5), ("priority", .int 2),
              ("mode", .str "emergency")] }) := by
  have h := glyph_text_roundtrip 1 66 0x8003 "smart_city" "@C3"
    (by decide) (by decide) (by omega)
  exact ⟨h.1, h.2 5 2 "emergency" (by omega) (by omega) (by simp)⟩

/-- Counterexample to C9 as stated: glyph_code 0 is outside the token
table, renders as `@0000`, and parses back as `0xFFFF` — the round-trip
does not hold for every glyph_code in [0, 65535]. -/
theorem glyph_text_roundtrip_counterexample :
    GlyphCodec.from_text (GlyphCodec.to_text
      { domain := 1, authority := 0, glyph_code := 0 }) =
      .ok { domain := 1, authority := 0, glyph_code := 0xFFFF } ∧
    (0xFFFF : Nat) ≠ 0 :=
  ⟨rfl, by decide⟩

end UASC
